import Mathlib

/-!
# nsinsider: network-namespace bridging

A shallow embedding of the verbs `setup-pair-veths`, `setup-peer-veth` and
`enable-ip-forward` of `components/ws-daemon/nsinsider/main.go`, together with
the nftables rule expressions the first verb builds, and the properties of
these that the specification states.

Bytes are natural numbers below 256; byte strings (`[]byte`, `net.IP`,
`net.IPMask`) are lists of bytes, the nil slice being the empty list.
-/

namespace Nsinsider

/-! ## Go values used by the verbs: package `net`, string conversion -/

/-- Length in bytes of an IPv4 address (`net.IPv4len`). -/
def IPv4len : Nat := 4

/-- Length in bytes of an IPv6 address (`net.IPv6len`). -/
def IPv6len : Nat := 16

/-- The twelve bytes that precede an IPv4 address in its 16-byte form. -/
def v4InV6Head : List Nat := [0, 0, 0, 0, 0, 0, 0, 0, 0, 0, 0xff, 0xff]

/-- The call `net.IPv4(a, b, c, d)`: the address in its 16-byte form. -/
def IPv4 (a b c d : Nat) : List Nat := v4InV6Head ++ [a, b, c, d]

/-- The call `net.IPv4Mask(a, b, c, d)`: a 4-byte mask. -/
def IPv4Mask (a b c d : Nat) : List Nat := [a, b, c, d]

/-- The method `IP.To4`: the 4-byte form of an IPv4 address, nil otherwise. -/
def To4 (ip : List Nat) : List Nat :=
  if ip.length = IPv4len then ip
  else if ip.length = IPv6len ∧ ip.take 12 = v4InV6Head then ip.drop 12
  else []

/-- The method `IP.Mask`: the address ANDed byte by byte with the mask. -/
def Mask (ip mask : List Nat) : List Nat :=
  let mask1 :=
    if mask.length = IPv6len ∧ ip.length = IPv4len ∧ (mask.take 12).all (fun b => b == 0xff)
    then mask.drop 12 else mask
  let ip1 :=
    if mask1.length = IPv4len ∧ ip.length = IPv6len ∧ ip.take 12 = v4InV6Head
    then ip.drop 12 else ip
  if ip1.length = mask1.length then List.zipWith (fun a m => a &&& m) ip1 mask1 else []

/-- A value of `net.IPNet`. -/
structure IPNet where
  ip : List Nat
  mask : List Nat
  deriving DecidableEq, Repr

/-- The conversion `[]byte(s)` of an ASCII string: one byte per character. -/
def bytesOf (s : String) : List Nat := s.data.map Char.toNat

/-- The constant `unix.IPPROTO_TCP`. -/
def IPPROTO_TCP : Nat := 6

/-- The constant `unix.NFPROTO_IPV4`. -/
def NFPROTO_IPV4 : Nat := 2

/-! ## nftables expressions (package `expr`) -/

/-- Base of a payload load (`expr.PayloadBase...`). -/
inductive PayloadBase where
  | llHeader
  | networkHeader
  | transportHeader
  deriving DecidableEq, Repr

/-- Comparison operators (`expr.CmpOp...`). -/
inductive CmpOp where
  | eq
  | neq
  | lt
  | lte
  | gt
  | gte
  deriving DecidableEq, Repr

/-- Metadata keys the rules use (`expr.MetaKey...`). -/
inductive MetaKey where
  | iifname
  | oifname
  | l4proto
  deriving DecidableEq, Repr

/-- Kind of address translation (`expr.NATType...`). -/
inductive NATType where
  | sourceNAT
  | destNAT
  deriving DecidableEq, Repr

/-- The expressions of a rule (`expr.Any`), as a tagged variant. A register
field of `nat` that is 0 is not set, as in the Go structure. -/
inductive Expr where
  | payload (destRegister : Nat) (base : PayloadBase) (offset len : Nat)
  | bitwise (sourceRegister destRegister len : Nat) (mask xor : List Nat)
  | cmp (op : CmpOp) (register : Nat) (data : List Nat)
  | metaLoad (key : MetaKey) (register : Nat)
  | immediate (register : Nat) (data : List Nat)
  | masq
  | nat (type : NATType) (family regAddrMin regAddrMax regProtoMin regProtoMax : Nat)
  deriving DecidableEq, Repr

/-- The register an expression writes, if it writes one. -/
def Expr.destReg : Expr → Option Nat
  | .payload r _ _ _ => some r
  | .bitwise _ r _ _ _ => some r
  | .cmp _ _ _ => none
  | .metaLoad _ r => some r
  | .immediate r _ => some r
  | .masq => none
  | .nat _ _ _ _ _ _ => none

/-! ## Evaluation of a rule against a packet -/

/-- What a rule sees of a packet: the names of the interfaces it came in on
and leaves by (no NUL byte, at most 15 bytes), the transport protocol when the
network header gives one, and the bytes from the network header and from the
transport header onwards. -/
structure Packet where
  iifname : List Nat
  oifname : List Nat
  l4proto : Option Nat
  networkHeader : List Nat
  transportHeader : List Nat
  deriving DecidableEq, Repr

/-- Size of an interface name buffer (`IFNAMSIZ`). -/
def IFNAMSIZ : Nat := 16

/-- An interface name as the kernel holds it: non-NUL bytes, fewer than
`IFNAMSIZ` of them. -/
def IsIfName (n : List Nat) : Prop :=
  n.length < IFNAMSIZ ∧ ∀ b ∈ n, 0 < b ∧ b < 256

instance (n : List Nat) : Decidable (IsIfName n) := by
  unfold IsIfName; infer_instance

/-- Well-formed packets: every byte is a byte, both names are interface
names. -/
def Packet.WF (p : Packet) : Prop :=
  IsIfName p.iifname ∧ IsIfName p.oifname ∧ (∀ b ∈ p.l4proto, b < 256) ∧
    (∀ b ∈ p.networkHeader, b < 256) ∧ (∀ b ∈ p.transportHeader, b < 256)

instance (p : Packet) : Decidable p.WF := by
  unfold Packet.WF; infer_instance

/-- The `len` bytes at `offset`, when the list has them. -/
def slice (l : List Nat) (offset len : Nat) : Option (List Nat) :=
  if offset + len ≤ l.length then some ((l.drop offset).take len) else none

/-- The scratch registers: register number to the bytes it holds. -/
abbrev Regs := Nat → List Nat

/-- The first `n` bytes of register `r`. -/
def readReg (regs : Regs) (r n : Nat) : List Nat :=
  ((regs r) ++ List.replicate n 0).take n

/-- Store `data` at the start of register `r`; bytes of the register beyond
the data are kept. -/
def writeReg (regs : Regs) (r : Nat) (data : List Nat) : Regs :=
  fun i => if i = r then data ++ (regs r).drop data.length else regs i

/-- Byte-wise comparison of two byte strings of the same length, as `memcmp`
does it: the first differing byte decides. -/
def memcmp : List Nat → List Nat → Ordering
  | a :: as, b :: bs => if a < b then .lt else if b < a then .gt else memcmp as bs
  | _, _ => .eq

/-- Whether a comparison with outcome `d` of `memcmp` passes for operator `op`. -/
def CmpOp.holds (op : CmpOp) (d : Ordering) : Bool :=
  match op with
  | .eq => d == .eq
  | .neq => d != .eq
  | .lt => d == .lt
  | .lte => d != .gt
  | .gt => d == .gt
  | .gte => d != .lt

/-- An interface name padded with NUL bytes to `IFNAMSIZ`. -/
def ifnameBuf (name : List Nat) : List Nat :=
  (name ++ List.replicate IFNAMSIZ 0).take IFNAMSIZ

/-- One non-terminal expression: the registers afterwards, or `none` when the
expression does not succeed and the rule stops without matching. -/
def evalExpr (p : Packet) (e : Expr) (regs : Regs) : Option Regs :=
  match e with
  | .payload dreg base offset len =>
    let src := match base with
      | .llHeader => none
      | .networkHeader => slice p.networkHeader offset len
      | .transportHeader => slice p.transportHeader offset len
    match src with
    | none => none
    | some bytes => some (writeReg regs dreg bytes)
  | .bitwise sreg dreg len mask xor =>
    let src := readReg regs sreg len
    let masked := List.zipWith (fun a m => a &&& m) src mask
    some (writeReg regs dreg (List.zipWith (fun a x => a ^^^ x) masked xor))
  | .cmp op reg data =>
    if op.holds (memcmp (readReg regs reg data.length) data) then some regs else none
  | .metaLoad key reg =>
    match key with
    | .iifname => some (writeReg regs reg (ifnameBuf p.iifname))
    | .oifname => some (writeReg regs reg (ifnameBuf p.oifname))
    | .l4proto =>
      match p.l4proto with
      | none => none
      | some proto => some (writeReg regs reg [proto])
  | .immediate reg data => some (writeReg regs reg data)
  | .masq => some regs
  | .nat _ _ _ _ _ _ => some regs

/-- What a NAT action was given: the address range and, when a port register
is set, the port range, both read from the registers. -/
structure NatRange where
  type : NATType
  family : Nat
  addrMin : Option (List Nat)
  addrMax : Option (List Nat)
  protoMin : Option (List Nat)
  protoMax : Option (List Nat)
  deriving DecidableEq, Repr

/-- The range a `nat` expression reads from the registers: 4-byte addresses
for the IPv4 family, 2-byte ports; a maximum that is not set is the minimum. -/
def natRange (regs : Regs) (type : NATType) (family rAddrMin rAddrMax rProtoMin rProtoMax : Nat) :
    NatRange :=
  let alen := if family = NFPROTO_IPV4 then 4 else 16
  { type := type
    family := family
    addrMin := if rAddrMin = 0 then none else some (readReg regs rAddrMin alen)
    addrMax := if rAddrMin = 0 then none
               else some (readReg regs (if rAddrMax = 0 then rAddrMin else rAddrMax) alen)
    protoMin := if rProtoMin = 0 then none else some (readReg regs rProtoMin 2)
    protoMax := if rProtoMin = 0 then none
                else some (readReg regs (if rProtoMax = 0 then rProtoMin else rProtoMax) 2) }

/-- How the evaluation of a rule ends. -/
inductive Outcome where
  /-- an expression did not succeed: the rule does not match -/
  | noMatch
  /-- every expression succeeded and none was an action -/
  | fallThrough (regs : Regs)
  /-- the masquerade action was reached, with these registers -/
  | masquerade (regs : Regs)
  /-- the NAT action was reached, with these registers and this range -/
  | translate (regs : Regs) (range : NatRange)

/-- Evaluate the expressions of a rule from left to right. The first
expression that does not succeed ends the evaluation without a match; an
action ends it with that action. -/
def evalRule (p : Packet) : List Expr → Regs → Outcome
  | [], regs => .fallThrough regs
  | .masq :: _, regs => .masquerade regs
  | .nat t f a1 a2 p1 p2 :: _, regs => .translate regs (natRange regs t f a1 a2 p1 p2)
  | e :: es, regs =>
    match evalExpr p e regs with
    | none => .noMatch
    | some regs1 => evalRule p es regs1

/-- Whether the outcome is the masquerade action. -/
def Outcome.isMasquerade : Outcome → Bool
  | .masquerade _ => true
  | _ => false

/-- Whether the outcome is the NAT action. -/
def Outcome.isTranslate : Outcome → Bool
  | .translate _ _ => true
  | _ => false

/-- Replace the bytes of `l` at `offset` by `data`. -/
def patch (l : List Nat) (offset : Nat) (data : List Nat) : List Nat :=
  l.take offset ++ data ++ l.drop (offset + data.length)

/-- A packet after destination NAT with a range of one address and, when
given, one port: the destination address field (network header offset 16) and
the destination port field (transport header offset 2) are replaced. -/
def Packet.rewriteDest (p : Packet) (range : NatRange) : Packet :=
  match range.addrMin with
  | none => p
  | some addr =>
    { p with
      networkHeader := patch p.networkHeader 16 addr
      transportHeader :=
        match range.protoMin with
        | none => p.transportHeader
        | some port => patch p.transportHeader 2 port }

/-! ## nftables objects and the buffered connection (package `nftables`) -/

/-- Address family of a table (`nftables.TableFamily...`). -/
inductive TableFamily where
  | inet
  | ipv4
  | ipv6
  | arp
  | netdev
  | bridge
  deriving DecidableEq, Repr

/-- Hook of a base chain (`nftables.ChainHook...`). -/
inductive ChainHook where
  | prerouting
  | input
  | forward
  | output
  | postrouting
  | ingress
  deriving DecidableEq, Repr

/-- Type of a base chain (`nftables.ChainType...`). -/
inductive ChainType where
  | filter
  | route
  | nat
  deriving DecidableEq, Repr

/-- The priority `nftables.ChainPriorityNATDest`. -/
def ChainPriorityNATDest : Int := -100

/-- The priority `nftables.ChainPriorityNATSource`. -/
def ChainPriorityNATSource : Int := 100

/-- A value of `nftables.Table`. -/
structure Table where
  family : TableFamily
  name : String
  deriving DecidableEq, Repr

/-- A value of `nftables.Chain`. -/
structure Chain where
  name : String
  hooknum : ChainHook
  priority : Int
  table : Table
  type : ChainType
  deriving DecidableEq, Repr

/-- A value of `nftables.Rule`. -/
structure Rule where
  table : Table
  chain : Chain
  exprs : List Expr
  deriving DecidableEq, Repr

/-- A message buffered by a connection until it is flushed. -/
inductive NftMsg where
  | newTable (t : Table)
  | newChain (c : Chain)
  | newRule (r : Rule)
  deriving DecidableEq, Repr

/-- A value of `nftables.Conn`: the messages added and not yet flushed. The
zero value `&nftables.Conn{}` has none. -/
structure Conn where
  messages : List NftMsg := []
  deriving DecidableEq, Repr

/-- The method `Conn.AddTable`: buffers the creation of the table. -/
def Conn.AddTable (nc : Conn) (t : Table) : Conn := { messages := nc.messages ++ [.newTable t] }

/-- The method `Conn.AddChain`: buffers the creation of the chain. -/
def Conn.AddChain (nc : Conn) (c : Chain) : Conn := { messages := nc.messages ++ [.newChain c] }

/-- The method `Conn.AddRule`: buffers the addition of the rule. -/
def Conn.AddRule (nc : Conn) (r : Rule) : Conn := { messages := nc.messages ++ [.newRule r] }

/-! ## netlink values (package `netlink`) -/

/-- The flag `net.FlagUp`. -/
def FlagUp : Nat := 1

/-- A value of `netlink.LinkAttrs`, with the fields the verbs set or use. -/
structure LinkAttrs where
  index : Nat := 0
  name : String
  flags : Nat := 0
  mtu : Nat := 0
  deriving DecidableEq, Repr

/-- A value of `netlink.Veth`; `peerNamespace` is the pid of `netlink.NsPid`. -/
structure Veth where
  attrs : LinkAttrs
  peerName : String
  peerNamespace : Int
  deriving DecidableEq, Repr

/-- Scope of a route (`netlink.SCOPE_...`). -/
inductive Scope where
  | universe
  | site
  | link
  | host
  | nowhere
  deriving DecidableEq, Repr

/-- A value of `netlink.Route`, with the fields the verbs set; a route without
destination is the default route. -/
structure Route where
  dst : Option IPNet := none
  scope : Scope
  gw : List Nat
  deriving DecidableEq, Repr

/-! ## The kernel interface and the verbs -/

/-- A call into the kernel, as the verbs issue them through `netlink`,
`nftables` and `os`. -/
inductive Call where
  | LinkAdd (veth : Veth)
  | LinkDel (link : LinkAttrs)
  | LinkByName (name : String)
  | AddrAdd (link : LinkAttrs) (addr : IPNet)
  | LinkSetUp (link : LinkAttrs)
  | RouteReplace (route : Route)
  | Flush (messages : List NftMsg)
  | WriteFile (name : String) (data : List Nat) (perm : Nat)
  deriving DecidableEq, Repr

/-- A kernel to run the verbs against, with state `σ`. Every call gives the
state it leaves; a call returns `none` (Go's nil error) or the error's text,
and `LinkByName` returns the link or the error's text. -/
structure Sys (σ : Type) where
  LinkAdd : Veth → σ → Option String × σ
  LinkDel : LinkAttrs → σ → Option String × σ
  LinkByName : String → σ → Except String LinkAttrs × σ
  AddrAdd : LinkAttrs → IPNet → σ → Option String × σ
  LinkSetUp : LinkAttrs → σ → Option String × σ
  RouteReplace : Route → σ → Option String × σ
  Flush : List NftMsg → σ → Option String × σ
  WriteFile : String → List Nat → Nat → σ → Option String × σ

/-- The error of a result of `LinkByName`, `none` when it found the link. -/
def errOf (r : Except String LinkAttrs) : Option String :=
  match r with
  | .ok _ => none
  | .error e => some e

/-- One kernel call of a run and the error it returned (`none`: success). -/
structure Event where
  call : Call
  err : Option String
  deriving DecidableEq, Repr

/-- A run of a verb: the error it returns (`none`: nil), the state it leaves
and the kernel calls it issued, in order. -/
structure Run (σ : Type) where
  err : Option String
  state : σ
  trace : List Event

/-- The verb `%q` of a string without characters that need escaping. -/
def quote (s : String) : String := "\"" ++ s ++ "\""

namespace SetupPairVeths

/-- The local `containerIf`. -/
def containerIf : String := "eth0"

/-- The local `vethIf`. -/
def vethIf : String := "veth0"

/-- The local `cethIf`. -/
def cethIf : String := "ceth0"

/-- The local `mask`. -/
def mask : List Nat := IPv4Mask 255 255 255 0

/-- The local `vethIp`. -/
def vethIp : IPNet := { ip := IPv4 10 0 5 1, mask := mask }

/-- The local `cethIp`. -/
def cethIp : IPNet := { ip := IPv4 10 0 5 2, mask := mask }

/-- The local `masqueradeAddr`. -/
def masqueradeAddr : IPNet := { ip := Mask vethIp.ip mask, mask := mask }

/-- The local `veth`, the pair to create. -/
def veth (targetPid : Int) : Veth :=
  { attrs := { name := vethIf, flags := FlagUp, mtu := 1500 }
    peerName := cethIf
    peerNamespace := targetPid }

/-- The local `nat`, the table given to `AddTable`. -/
def nat : Table := { family := .ipv4, name := "nat" }

/-- The local `postrouting`, the chain given to the first `AddChain`. -/
def postrouting : Chain :=
  { name := "postrouting"
    hooknum := .postrouting
    priority := ChainPriorityNATSource
    table := nat
    type := .nat }

/-- The rule `ip saddr 10.0.5.0/24 oifname "eth0" masquerade`. -/
def masqueradeRule : Rule :=
  { table := nat
    chain := postrouting
    exprs :=
      [ .payload 1 .networkHeader 12 IPv4len,
        .bitwise 1 1 IPv4len masqueradeAddr.mask (IPv4Mask 0 0 0 0),
        .cmp .eq 1 (To4 masqueradeAddr.ip),
        .metaLoad .oifname 1,
        .cmp .eq 1 (bytesOf (containerIf ++ "\x00")),
        .masq ] }

/-- The local `prerouting`, the chain given to the second `AddChain`. -/
def prerouting : Chain :=
  { name := "prerouting"
    hooknum := .prerouting
    priority := ChainPriorityNATDest
    table := nat
    type := .nat }

/-- The rule `iif $containerIf tcp dport 1-65535 dnat to $cethIp:tcp dport`. -/
def dnatRule : Rule :=
  { table := nat
    chain := prerouting
    exprs :=
      [ .metaLoad .iifname 1,
        .cmp .eq 1 (bytesOf (containerIf ++ "\x00")),
        .metaLoad .l4proto 1,
        .cmp .eq 1 [IPPROTO_TCP],
        .payload 1 .transportHeader 2 2,
        .cmp .gte 1 [0x00, 0x01],
        .cmp .lte 1 [0xff, 0xff],
        .immediate 2 (To4 cethIp.ip),
        .nat .destNAT NFPROTO_IPV4 2 0 1 0 ] }

/-- The connection after the five additions, before the flush. -/
def conn : Conn :=
  (((((({} : Conn).AddTable nat).AddChain postrouting).AddRule masqueradeRule).AddChain
    prerouting).AddRule dnatRule)

end SetupPairVeths

/-- The action of `setup-pair-veths`, given `--target-pid`. -/
def setupPairVeths {σ : Type} (sys : Sys σ) (targetPid : Int) (s0 : σ) : Run σ :=
  open SetupPairVeths in
  let veth := veth targetPid
  match sys.LinkAdd veth s0 with
  | (some err, s1) =>
    { err := some ("link " ++ quote vethIf ++ "-" ++ quote cethIf ++ " netns failed: " ++ err)
      state := s1
      trace := [⟨.LinkAdd veth, some err⟩] }
  | (none, s1) =>
  match sys.LinkByName vethIf s1 with
  | (.error err, s2) =>
    { err := some ("cannot found " ++ quote vethIf ++ " netns failed: " ++ err)
      state := s2
      trace := [⟨.LinkAdd veth, none⟩, ⟨.LinkByName vethIf, some err⟩] }
  | (.ok vethLink, s2) =>
  match sys.AddrAdd vethLink vethIp s2 with
  | (some err, s3) =>
    { err := some ("failed to add IP address to " ++ quote vethIf ++ ": " ++ err)
      state := s3
      trace := [⟨.LinkAdd veth, none⟩, ⟨.LinkByName vethIf, none⟩,
        ⟨.AddrAdd vethLink vethIp, some err⟩] }
  | (none, s3) =>
  match sys.LinkSetUp vethLink s3 with
  | (some err, s4) =>
    { err := some ("failed to enable " ++ quote vethIf ++ ": " ++ err)
      state := s4
      trace := [⟨.LinkAdd veth, none⟩, ⟨.LinkByName vethIf, none⟩,
        ⟨.AddrAdd vethLink vethIp, none⟩, ⟨.LinkSetUp vethLink, some err⟩] }
  | (none, s4) =>
  let nc := conn
  match sys.Flush nc.messages s4 with
  | (some err, s5) =>
    { err := some ("failed to apply nftables: " ++ err)
      state := s5
      trace := [⟨.LinkAdd veth, none⟩, ⟨.LinkByName vethIf, none⟩,
        ⟨.AddrAdd vethLink vethIp, none⟩, ⟨.LinkSetUp vethLink, none⟩,
        ⟨.Flush nc.messages, some err⟩] }
  | (none, s5) =>
    { err := none
      state := s5
      trace := [⟨.LinkAdd veth, none⟩, ⟨.LinkByName vethIf, none⟩,
        ⟨.AddrAdd vethLink vethIp, none⟩, ⟨.LinkSetUp vethLink, none⟩,
        ⟨.Flush nc.messages, none⟩] }

namespace SetupPeerVeth

/-- The local `cethIf`. -/
def cethIf : String := "ceth0"

/-- The local `mask`. -/
def mask : List Nat := IPv4Mask 255 255 255 0

/-- The local `cethIp`. -/
def cethIp : IPNet := { ip := IPv4 10 0 5 2, mask := mask }

/-- The local `vethIp`. -/
def vethIp : IPNet := { ip := IPv4 10 0 5 1, mask := mask }

/-- The local `defaultGw`. -/
def defaultGw : Route := { scope := .universe, gw := vethIp.ip }

end SetupPeerVeth

/-- The action of `setup-peer-veth`. -/
def setupPeerVeth {σ : Type} (sys : Sys σ) (s0 : σ) : Run σ :=
  open SetupPeerVeth in
  match sys.LinkByName cethIf s0 with
  | (.error err, s1) =>
    { err := some ("cannot found " ++ quote cethIf ++ " netns failed: " ++ err)
      state := s1
      trace := [⟨.LinkByName cethIf, some err⟩] }
  | (.ok cethLink, s1) =>
  match sys.AddrAdd cethLink cethIp s1 with
  | (some err, s2) =>
    { err := some ("failed to add IP address to " ++ quote cethIf ++ ": " ++ err)
      state := s2
      trace := [⟨.LinkByName cethIf, none⟩, ⟨.AddrAdd cethLink cethIp, some err⟩] }
  | (none, s2) =>
  match sys.LinkSetUp cethLink s2 with
  | (some err, s3) =>
    { err := some ("failed to enable " ++ quote cethIf ++ ": " ++ err)
      state := s3
      trace := [⟨.LinkByName cethIf, none⟩, ⟨.AddrAdd cethLink cethIp, none⟩,
        ⟨.LinkSetUp cethLink, some err⟩] }
  | (none, s3) =>
  match sys.LinkByName "lo" s3 with
  | (.error err, s4) =>
    { err := some ("cannot found lo: " ++ err)
      state := s4
      trace := [⟨.LinkByName cethIf, none⟩, ⟨.AddrAdd cethLink cethIp, none⟩,
        ⟨.LinkSetUp cethLink, none⟩, ⟨.LinkByName "lo", some err⟩] }
  | (.ok lo, s4) =>
  match sys.LinkSetUp lo s4 with
  | (some err, s5) =>
    { err := some ("failed to enable lo: " ++ err)
      state := s5
      trace := [⟨.LinkByName cethIf, none⟩, ⟨.AddrAdd cethLink cethIp, none⟩,
        ⟨.LinkSetUp cethLink, none⟩, ⟨.LinkByName "lo", none⟩, ⟨.LinkSetUp lo, some err⟩] }
  | (none, s5) =>
  match sys.RouteReplace defaultGw s5 with
  | (some err, s6) =>
    { err := some ("failed to set up deafult gw: " ++ err)
      state := s6
      trace := [⟨.LinkByName cethIf, none⟩, ⟨.AddrAdd cethLink cethIp, none⟩,
        ⟨.LinkSetUp cethLink, none⟩, ⟨.LinkByName "lo", none⟩, ⟨.LinkSetUp lo, none⟩,
        ⟨.RouteReplace defaultGw, some err⟩] }
  | (none, s6) =>
    { err := none
      state := s6
      trace := [⟨.LinkByName cethIf, none⟩, ⟨.AddrAdd cethLink cethIp, none⟩,
        ⟨.LinkSetUp cethLink, none⟩, ⟨.LinkByName "lo", none⟩, ⟨.LinkSetUp lo, none⟩,
        ⟨.RouteReplace defaultGw, none⟩] }

/-- The file that controls IPv4 forwarding. -/
def ipForwardFile : String := "/proc/sys/net/ipv4/ip_forward"

/-- The action of `enable-ip-forward`: the result of the write is returned as
it is. -/
def enableIpForward {σ : Type} (sys : Sys σ) (s0 : σ) : Run σ :=
  match sys.WriteFile ipForwardFile (bytesOf "1") 0o644 s0 with
  | (err, s1) =>
    { err := err
      state := s1
      trace := [⟨.WriteFile ipForwardFile (bytesOf "1") 0o644, err⟩] }

/-! ## A reference kernel

The objects of the data model (links, addresses, routes, the firewall
ruleset, the forwarding control file) and what the kernel calls above do to
them. -/

/-- Modelled from the spec: an Address, an IPv4 address plus mask bound to a
link. -/
structure IfAddr where
  ip : List Nat
  mask : List Nat
  deriving DecidableEq, Repr

/-- Modelled from the spec: a Link, with its name, administrative state, MTU,
addresses and, for one end of a veth pair, the namespace and index of the
other end. -/
structure Link where
  index : Nat
  name : String
  up : Bool
  mtu : Nat
  addrs : List IfAddr
  peer : Option (Nat × Nat)
  deriving DecidableEq, Repr

/-- Modelled from the spec: a Route, with the link its gateway is reached
through. -/
structure RouteEntry where
  dst : Option IPNet
  scope : Scope
  gw : List Nat
  dev : Nat
  deriving DecidableEq, Repr

/-- Modelled from the spec: a network namespace, with its links, its routes
and the firewall transactions committed in it, oldest first. -/
structure Netns where
  links : List Link
  routes : List RouteEntry
  ruleset : List (List NftMsg)
  deriving DecidableEq, Repr

/-- The state of the reference kernel: the namespace of the calling process,
the namespace of every process that exists, the namespaces, the files, which
files can be written, and whether the caller may change the network. -/
structure Kernel where
  cur : Nat
  nsOfPid : Int → Option Nat
  netns : Nat → Netns
  files : String → Option (List Nat)
  writable : String → Bool
  capNetAdmin : Bool

/-- The first link of the namespace with this name. -/
def Netns.findByName (ns : Netns) (name : String) : Option Link :=
  ns.links.find? (fun l => l.name == name)

/-- The first link of the namespace with this index. -/
def Netns.findByIndex (ns : Netns) (index : Nat) : Option Link :=
  ns.links.find? (fun l => l.index == index)

/-- An index above every index in use in the namespace. -/
def Netns.freshIndex (ns : Netns) : Nat :=
  (ns.links.map (fun l => l.index)).foldr max 0 + 1

/-- Apply `f` to the links of the namespace with this index. -/
def Netns.updateLinks (ns : Netns) (index : Nat) (f : Link → Link) : Netns :=
  { ns with links := ns.links.map (fun l => if l.index = index then f l else l) }

/-- The link with one more address. -/
def Link.addAddr (a : IfAddr) (l : Link) : Link := { l with addrs := l.addrs ++ [a] }

/-- The link in the up state. -/
def Link.setUp (l : Link) : Link := { l with up := true }

/-- The kernel with namespace `id` replaced. -/
def Kernel.setNs (k : Kernel) (id : Nat) (ns : Netns) : Kernel :=
  { k with netns := fun i => if i = id then ns else k.netns i }

/-- The kernel with one more link in namespace `id`. -/
def Kernel.addLink (k : Kernel) (id : Nat) (l : Link) : Kernel :=
  k.setNs id { (k.netns id) with links := (k.netns id).links ++ [l] }

/-- The namespace of the calling process. -/
def Kernel.curNs (k : Kernel) : Netns := k.netns k.cur

/-- The attributes `netlink` reports for a link. -/
def Link.attrs (l : Link) : LinkAttrs :=
  { index := l.index, name := l.name, flags := if l.up then FlagUp else 0, mtu := l.mtu }

/-- Whether address `ip` lies in the subnet of the link address `a`. -/
def IfAddr.covers (a : IfAddr) (ip : List Nat) : Bool :=
  Mask ip a.mask != [] && Mask ip a.mask == Mask a.ip a.mask

/-- Creation of a veth pair: both ends are created, or neither. It fails
when the caller may not change the network, when the pid has no namespace, or
when one of the two names is taken where its end is to go. -/
def Kernel.LinkAdd (veth : Veth) (k : Kernel) : Option String × Kernel :=
  if k.capNetAdmin = false then (some "operation not permitted", k)
  else
    match k.nsOfPid veth.peerNamespace with
    | none => (some "no such process", k)
    | some t =>
      if (k.curNs.findByName veth.attrs.name).isSome then (some "file exists", k)
      else if ((k.netns t).findByName veth.peerName).isSome then (some "file exists", k)
      else if t = k.cur ∧ veth.peerName = veth.attrs.name then (some "file exists", k)
      else
        let mtu := if veth.attrs.mtu = 0 then 1500 else veth.attrs.mtu
        let peerIndex := (k.netns t).freshIndex
        let hostIndex := if t = k.cur then peerIndex + 1 else k.curNs.freshIndex
        let peerLink : Link :=
          { index := peerIndex, name := veth.peerName, up := false, mtu := mtu, addrs := [],
            peer := some (k.cur, hostIndex) }
        let hostLink : Link :=
          { index := hostIndex, name := veth.attrs.name, up := veth.attrs.flags &&& FlagUp != 0,
            mtu := mtu, addrs := [], peer := some (t, peerIndex) }
        (none, (k.addLink t peerLink).addLink k.cur hostLink)

/-- Deletion of a link of the caller's namespace, and of the other end when
it is one end of a veth pair. -/
def Kernel.LinkDel (link : LinkAttrs) (k : Kernel) : Option String × Kernel :=
  if k.capNetAdmin = false then (some "operation not permitted", k)
  else
    match k.curNs.findByIndex link.index with
    | none => (some "no such device", k)
    | some l =>
      let k1 := k.setNs k.cur
        { k.curNs with links := k.curNs.links.filter (fun x => x.index != link.index) }
      match l.peer with
      | none => (none, k1)
      | some (t, i) =>
        (none, k1.setNs t
          { (k1.netns t) with links := (k1.netns t).links.filter (fun x => x.index != i) })

/-- Lookup of a link of the caller's namespace by name. -/
def Kernel.LinkByName (name : String) (k : Kernel) : Except String LinkAttrs × Kernel :=
  match k.curNs.findByName name with
  | none => (.error "Link not found", k)
  | some l => (.ok l.attrs, k)

/-- Assignment of an address to the link with the index of `link`. It fails
when the link does not exist or carries the address already. -/
def Kernel.AddrAdd (link : LinkAttrs) (addr : IPNet) (k : Kernel) : Option String × Kernel :=
  let a : IfAddr := { ip := To4 addr.ip, mask := addr.mask }
  if k.capNetAdmin = false then (some "operation not permitted", k)
  else if a.ip = [] then (some "invalid argument", k)
  else if (k.curNs.findByIndex link.index).isNone then (some "no such device", k)
  else if k.curNs.links.any (fun l => l.index == link.index && l.addrs.contains a) then
    (some "file exists", k)
  else
    (none, k.setNs k.cur (k.curNs.updateLinks link.index (Link.addAddr a)))

/-- Bringing up the link with the index of `link`. -/
def Kernel.LinkSetUp (link : LinkAttrs) (k : Kernel) : Option String × Kernel :=
  if k.capNetAdmin = false then (some "operation not permitted", k)
  else if (k.curNs.findByIndex link.index).isNone then (some "no such device", k)
  else (none, k.setNs k.cur (k.curNs.updateLinks link.index Link.setUp))

/-- Modelled from the spec: installing a route replaces any existing route
to the same destination. The gateway has to lie in the subnet of an address
of a link that is up. -/
def Kernel.RouteReplace (route : Route) (k : Kernel) : Option String × Kernel :=
  if k.capNetAdmin = false then (some "operation not permitted", k)
  else
    match k.curNs.links.find? (fun l => l.up && l.addrs.any (fun a => a.covers (To4 route.gw))) with
    | none => (some "network is unreachable", k)
    | some l =>
      let entry : RouteEntry :=
        { dst := route.dst, scope := route.scope, gw := To4 route.gw, dev := l.index }
      (none, k.setNs k.cur
        { k.curNs with
          routes := k.curNs.routes.filter (fun r => r.dst != route.dst) ++ [entry] })

/-- Modelled from the spec: the commit of a firewall transaction, all of its
messages together. -/
def Kernel.Flush (messages : List NftMsg) (k : Kernel) : Option String × Kernel :=
  if k.capNetAdmin = false then (some "operation not permitted", k)
  else (none, k.setNs k.cur { k.curNs with ruleset := k.curNs.ruleset ++ [messages] })

/-- The call `os.WriteFile`: the file holds the data afterwards. -/
def Kernel.WriteFile (name : String) (data : List Nat) (_perm : Nat) (k : Kernel) :
    Option String × Kernel :=
  if k.writable name = false then (some "permission denied", k)
  else (none, { k with files := fun n => if n = name then some data else k.files n })

/-- The reference kernel as a kernel to run the verbs against. -/
def refSys : Sys Kernel :=
  { LinkAdd := Kernel.LinkAdd
    LinkDel := Kernel.LinkDel
    LinkByName := Kernel.LinkByName
    AddrAdd := Kernel.AddrAdd
    LinkSetUp := Kernel.LinkSetUp
    RouteReplace := Kernel.RouteReplace
    Flush := Kernel.Flush
    WriteFile := Kernel.WriteFile }


/-! ## Definitions used to state the properties -/

section
open SetupPairVeths

/-- The source address field of the IPv4 header, when the header has it. -/
def Packet.saddr (p : Packet) : Option (List Nat) := slice p.networkHeader 12 4

/-- The destination address field of the IPv4 header, when the header has it. -/
def Packet.daddr (p : Packet) : Option (List Nat) := slice p.networkHeader 16 4

/-- The destination port field of the transport header, when the header has it. -/
def Packet.dport (p : Packet) : Option (List Nat) := slice p.transportHeader 2 2

/-- Run one call against a kernel: the error it returns and the state it
leaves. -/
def Sys.exec {σ : Type} (sys : Sys σ) (c : Call) (s : σ) : Option String × σ :=
  match c with
  | .LinkAdd veth => sys.LinkAdd veth s
  | .LinkDel link => sys.LinkDel link s
  | .LinkByName name => ((errOf (sys.LinkByName name s).1), (sys.LinkByName name s).2)
  | .AddrAdd link addr => sys.AddrAdd link addr s
  | .LinkSetUp link => sys.LinkSetUp link s
  | .RouteReplace route => sys.RouteReplace route s
  | .Flush messages => sys.Flush messages s
  | .WriteFile name data perm => sys.WriteFile name data perm s

/-- Run the calls in order, whatever they return: the events and the final
state. -/
def Sys.replay {σ : Type} (sys : Sys σ) : List Call → σ → List Event × σ
  | [], s => ([], s)
  | c :: cs, s =>
    let r := sys.exec c s
    let rest := sys.replay cs r.2
    (⟨c, r.1⟩ :: rest.1, rest.2)

/-- The calls of `setup-pair-veths` in order, `link` being what the lookup
returned. -/
def pairCalls (targetPid : Int) (link : LinkAttrs) : List Call :=
  [.LinkAdd (veth targetPid), .LinkByName vethIf, .AddrAdd link vethIp, .LinkSetUp link,
    .Flush conn.messages]

/-- A run that stops at the first failing call: every event but the last
succeeded, and the error returned is nil when the last call succeeded and
otherwise ends with the text of the error of the last call. -/
def Run.StopsAtFirstFailure {σ : Type} (r : Run σ) (total : Nat) : Prop :=
  (∀ e ∈ r.trace.dropLast, e.err = none) ∧
  ∃ e, r.trace.getLast? = some e ∧
    match e.err with
    | none => r.err = none ∧ r.trace.length = total
    | some u => ∃ ctx, r.err = some (ctx ++ u)

end

section
open SetupPeerVeth

/-- The address `setup-peer-veth` gives to `ceth0`, as the kernel holds it. -/
def cethAddr : IfAddr := { ip := [10, 0, 5, 2], mask := [255, 255, 255, 0] }

end

section
open SetupPairVeths

/-- The address `setup-pair-veths` gives to `veth0`, as the kernel holds it. -/
def vethAddr : IfAddr := { ip := [10, 0, 5, 1], mask := [255, 255, 255, 0] }

/-- The host-side end right after creation. -/
def newHost (t peerIndex hostIndex : Nat) : Link :=
  { index := hostIndex, name := "veth0", up := true, mtu := 1500, addrs := [],
    peer := some (t, peerIndex) }

/-- The sandbox-side end right after creation. -/
def newPeer (cur peerIndex hostIndex : Nat) : Link :=
  { index := peerIndex, name := "ceth0", up := false, mtu := 1500, addrs := [],
    peer := some (cur, hostIndex) }

/-- The index the host-side end gets. -/
def hostIndexOf (k : Kernel) (t : Nat) : Nat :=
  if t = k.cur then (k.netns t).freshIndex + 1 else k.curNs.freshIndex

/-- The kernel right after the veth pair has been created. -/
def afterLinkAdd (k : Kernel) (t : Nat) : Kernel :=
  (k.addLink t (newPeer k.cur (k.netns t).freshIndex (hostIndexOf k t))).addLink k.cur
    (newHost t (k.netns t).freshIndex (hostIndexOf k t))

/-- The host-side end as `setup-pair-veths` leaves it. -/
def finalHost (k : Kernel) (t : Nat) : Link :=
  (Link.addAddr vethAddr (newHost t (k.netns t).freshIndex (hostIndexOf k t))).setUp

end

section
open SetupPeerVeth

/-- The calls of `setup-peer-veth` in order, `ceth` and `lo` being what the
two lookups returned. -/
def peerCalls (ceth lo : LinkAttrs) : List Call :=
  [.LinkByName cethIf, .AddrAdd ceth cethIp, .LinkSetUp ceth, .LinkByName "lo", .LinkSetUp lo,
    .RouteReplace defaultGw]

end

section
open SetupPairVeths

/-- A TCP packet from the sandbox address to port 8080, through `eth0`. -/
def samplePacket : Packet where
  iifname := bytesOf "eth0"
  oifname := bytesOf "eth0"
  l4proto := some 6
  networkHeader := [0x45, 0, 0, 40, 0, 0, 0, 0, 64, 6, 0, 0, 10, 0, 5, 2, 192, 168, 1, 7]
  transportHeader := [0x9c, 0x40, 0x1f, 0x90, 0, 0, 0, 0, 0, 0, 0, 0, 0x50, 0x02, 0xff, 0xff, 0, 0, 0, 0]

/-- Registers that hold nothing. -/
def emptyRegs : Regs := fun _ => []

/-- The loopback link of a fresh namespace. -/
def loLink : Link :=
  { index := 1, name := "lo", up := false, mtu := 65536, addrs := [], peer := none }

/-- A kernel before any setup: the caller is in namespace 0, process 4242 is in
namespace 1, every namespace has only its loopback link. -/
def freshKernel : Kernel where
  cur := 0
  nsOfPid := fun pid => if pid = 4242 then some 1 else if pid = 1 then some 0 else none
  netns := fun _ => { links := [loLink], routes := [], ruleset := [] }
  files := fun _ => none
  writable := fun _ => true
  capNetAdmin := true

/-- A kernel in which the caller's namespace has a link named `veth0`. -/
def busyKernel : Kernel :=
  { freshKernel with
    netns := fun i =>
      if i = 0 then
        { links := [loLink,
            { index := 2, name := "veth0", up := true, mtu := 1500, addrs := [vethAddr],
              peer := some (1, 2) }]
          routes := [], ruleset := [] }
      else { links := [loLink], routes := [], ruleset := [] } }

/-- A kernel whose caller is inside the sandbox namespace, with `lo`, a fresh
`ceth0` and a default route from earlier. -/
def sandboxKernel : Kernel :=
  { freshKernel with
    cur := 1
    netns := fun _ =>
      { links := [loLink,
          { index := 2, name := "ceth0", up := false, mtu := 1500, addrs := [],
            peer := some (0, 2) }]
        routes := [{ dst := none, scope := .universe, gw := [192, 168, 0, 1], dev := 2 }]
        ruleset := [] } }

/-- A kernel, reduced to the names of the links of the caller's namespace, in
which the creation of a veth pair fails when the sandbox-side end is placed,
the host-side end being there already. -/
def halfVethSys : Sys (List String) where
  LinkAdd := fun v s => (some "no such process", s ++ [v.attrs.name])
  LinkDel := fun l s => (none, s.filter (fun n => n != l.name))
  LinkByName := fun n s => if n ∈ s then (.ok { name := n }, s) else (.error "Link not found", s)
  AddrAdd := fun _ _ s => (none, s)
  LinkSetUp := fun _ s => (none, s)
  RouteReplace := fun _ s => (none, s)
  Flush := fun _ s => (none, s)
  WriteFile := fun _ _ _ s => (none, s)

end

/-! ## Properties -/

section
open SetupPairVeths

theorem readReg_writeReg_same (regs : Regs) (r : Nat) (data : List Nat) (n : Nat)
    (h : n ≤ data.length) : readReg (writeReg regs r data) r n = data.take n := by
  simp [readReg, writeReg, List.take_append_of_le_length h]

theorem readReg_writeReg_other (regs : Regs) (r r1 : Nat) (data : List Nat) (n : Nat)
    (h : r1 ≠ r) : readReg (writeReg regs r data) r1 n = readReg regs r1 n := by
  simp [readReg, writeReg, h]

theorem memcmp_eq_iff : ∀ (a b : List Nat), a.length = b.length → (memcmp a b = .eq ↔ a = b)
  | [], [], _ => by simp [memcmp]
  | [], _ :: _, h => by simp at h
  | _ :: _, [], h => by simp at h
  | a :: as, b :: bs, h => by
    have ih := memcmp_eq_iff as bs (by simpa using h)
    unfold memcmp
    by_cases h1 : a < b
    · simp [h1]; omega
    · by_cases h2 : b < a
      · simp [h1, h2]; omega
      · have : a = b := by omega
        simp [h1, h2, ih, this]

theorem slice_length {l : List Nat} {o n : Nat} {x : List Nat} (h : slice l o n = some x) :
    x.length = n := by
  unfold slice at h
  split at h
  · simp at h; subst h; simp; omega
  · simp at h

theorem list_length_four {x : List Nat} (h : x.length = 4) : ∃ a b c d, x = [a, b, c, d] := by
  match x, h with
  | [a, b, c, d], _ => exact ⟨a, b, c, d, rfl⟩

theorem list_length_two {x : List Nat} (h : x.length = 2) : ∃ a b, x = [a, b] := by
  match x, h with
  | [a, b], _ => exact ⟨a, b, rfl⟩

theorem ifnameBuf_take_eth0 (n : List Nat) (h : IsIfName n) :
    (ifnameBuf n).take 5 = [101, 116, 104, 48, 0] ↔ n = [101, 116, 104, 48] := by
  obtain ⟨hl, hb⟩ := h
  match n, hl, hb with
  | [], _, _ => simp [ifnameBuf, IFNAMSIZ, List.replicate]
  | [a], _, _ => simp [ifnameBuf, IFNAMSIZ, List.replicate]
  | [a, b], _, _ => simp [ifnameBuf, IFNAMSIZ, List.replicate]
  | [a, b, c], _, _ => simp [ifnameBuf, IFNAMSIZ, List.replicate]
  | [a, b, c, d], _, _ => simp [ifnameBuf, IFNAMSIZ, List.replicate]
  | a :: b :: c :: d :: e :: rest, hl, hb =>
    have he : 0 < e := (hb e (by simp)).1
    simp [ifnameBuf, IFNAMSIZ]
    intro _ _ _ _ h0
    omega

theorem masqueradeRule_exprs : masqueradeRule.exprs =
    [ .payload 1 .networkHeader 12 4,
      .bitwise 1 1 4 [255, 255, 255, 0] [0, 0, 0, 0],
      .cmp .eq 1 [10, 0, 5, 0],
      .metaLoad .oifname 1,
      .cmp .eq 1 [101, 116, 104, 48, 0],
      .masq ] := by decide

theorem ifnameBuf_length (n : List Nat) : (ifnameBuf n).length = 16 := by
  simp [ifnameBuf, IFNAMSIZ]

theorem cmp_eq_holds (a b : List Nat) (h : a.length = b.length) :
    CmpOp.eq.holds (memcmp a b) = true ↔ a = b := by
  rw [← memcmp_eq_iff a b h]
  cases memcmp a b <;> decide

theorem evalRule_payload (p : Packet) (r : Nat) (base : PayloadBase) (o n : Nat)
    (es : List Expr) (regs : Regs) :
    evalRule p (.payload r base o n :: es) regs =
      match evalExpr p (.payload r base o n) regs with
      | none => .noMatch
      | some regs1 => evalRule p es regs1 := by
  cases h : evalExpr p (.payload r base o n) regs <;> simp [evalRule, h]

theorem evalRule_bitwise (p : Packet) (s r n : Nat) (m x : List Nat) (es : List Expr)
    (regs : Regs) :
    evalRule p (.bitwise s r n m x :: es) regs =
      evalRule p es (writeReg regs r
        (List.zipWith (fun a x => a ^^^ x)
          (List.zipWith (fun a m => a &&& m) (readReg regs s n) m) x)) := by
  simp [evalRule, evalExpr]

theorem evalRule_cmp (p : Packet) (op : CmpOp) (r : Nat) (data : List Nat) (es : List Expr)
    (regs : Regs) :
    evalRule p (.cmp op r data :: es) regs =
      if op.holds (memcmp (readReg regs r data.length) data) = true then evalRule p es regs
      else .noMatch := by
  simp only [evalRule, evalExpr]
  split_ifs <;> rfl

theorem evalRule_oifname (p : Packet) (r : Nat) (es : List Expr) (regs : Regs) :
    evalRule p (.metaLoad .oifname r :: es) regs =
      evalRule p es (writeReg regs r (ifnameBuf p.oifname)) := by
  simp [evalRule, evalExpr]

theorem evalRule_iifname (p : Packet) (r : Nat) (es : List Expr) (regs : Regs) :
    evalRule p (.metaLoad .iifname r :: es) regs =
      evalRule p es (writeReg regs r (ifnameBuf p.iifname)) := by
  simp [evalRule, evalExpr]

theorem evalRule_l4proto (p : Packet) (r : Nat) (es : List Expr) (regs : Regs) :
    evalRule p (.metaLoad .l4proto r :: es) regs =
      match p.l4proto with
      | none => .noMatch
      | some proto => evalRule p es (writeReg regs r [proto]) := by
  cases h : p.l4proto <;> simp [evalRule, evalExpr, h]

theorem evalRule_immediate (p : Packet) (r : Nat) (data : List Nat) (es : List Expr)
    (regs : Regs) :
    evalRule p (.immediate r data :: es) regs = evalRule p es (writeReg regs r data) := by
  simp [evalRule, evalExpr]

theorem masquerade_iff (p : Packet) (regs : Regs) (hp : IsIfName p.oifname) :
    (evalRule p masqueradeRule.exprs regs).isMasquerade = true ↔
      ∃ a b c d, p.saddr = some [a, b, c, d] ∧
        [(a &&& 255) ^^^ 0, (b &&& 255) ^^^ 0, (c &&& 255) ^^^ 0, (d &&& 0) ^^^ 0] = [10, 0, 5, 0] ∧
        p.oifname = [101, 116, 104, 48] := by
  rw [masqueradeRule_exprs]
  unfold Packet.saddr
  cases hs : slice p.networkHeader 12 4 with
  | none => simp [evalRule_payload, evalExpr, hs, Outcome.isMasquerade]
  | some x =>
    obtain ⟨a, b, c, d, rfl⟩ := list_length_four (slice_length hs)
    have hname := ifnameBuf_take_eth0 p.oifname hp
    have hlen := ifnameBuf_length p.oifname
    simp only [evalRule_payload, evalRule_bitwise, evalRule_cmp, evalRule_oifname, evalExpr, hs]
    simp (disch := simp [hlen]) only [readReg_writeReg_same, List.length_cons, List.length_nil]
    simp only [List.take, List.zipWith, Nat.zero_add]
    have e1 := cmp_eq_holds [a &&& 255 ^^^ 0, b &&& 255 ^^^ 0, c &&& 255 ^^^ 0, d &&& 0 ^^^ 0]
      [10, 0, 5, 0] rfl
    have e2 := cmp_eq_holds (List.take 5 (ifnameBuf p.oifname)) [101, 116, 104, 48, 0]
      (by simp [hlen])
    rw [hname] at e2
    have key : ∀ (c1 c2 : Prop) [Decidable c1] [Decidable c2] (r : Regs),
        (if c1 then (if c2 then evalRule p [Expr.masq] r else Outcome.noMatch)
          else Outcome.noMatch).isMasquerade = true ↔ c1 ∧ c2 := by
      intro c1 c2 _ _ r
      by_cases h1 : c1 <;> by_cases h2 : c2 <;> simp [h1, h2, evalRule, Outcome.isMasquerade]
    rw [key, e1, e2]
    constructor
    · rintro ⟨h1, h2⟩
      exact ⟨a, b, c, d, rfl, h1, h2⟩
    · rintro ⟨a1, b1, c1, d1, he, h1, h2⟩
      simp only [Option.some.injEq, List.cons.injEq] at he
      obtain ⟨rfl, rfl, rfl, rfl, _⟩ := he
      exact ⟨h1, h2⟩

theorem dnatRule_exprs : dnatRule.exprs =
    [ .metaLoad .iifname 1,
      .cmp .eq 1 [101, 116, 104, 48, 0],
      .metaLoad .l4proto 1,
      .cmp .eq 1 [6],
      .payload 1 .transportHeader 2 2,
      .cmp .gte 1 [0, 1],
      .cmp .lte 1 [255, 255],
      .immediate 2 [10, 0, 5, 2],
      .nat .destNAT 2 2 0 1 0 ] := by decide

theorem slice_patch (l : List Nat) (o : Nat) (d : List Nat) (h : o + d.length ≤ l.length) :
    slice (patch l o d) o d.length = some d := by
  have h1 : (List.take o l).length = o := by simp; omega
  have h2 : ∀ (x y : List Nat), x.length = o → List.drop o (x ++ y) = y := by
    intro x y hx
    subst hx
    exact List.drop_left _ _
  have h2 := h2 (List.take o l) (d ++ List.drop (o + d.length) l) h1
  unfold slice patch
  rw [if_pos (by simp; omega), List.append_assoc, h2]
  simp

theorem patch_slice {l : List Nat} {o n : Nat} {d : List Nat} (h : slice l o n = some d) :
    patch l o d = l := by
  have hn := slice_length h
  unfold slice at h
  split at h
  · simp only [Option.some.injEq] at h
    unfold patch
    rw [hn, ← h, List.append_assoc, ← List.drop_drop, List.take_append_drop,
      List.take_append_drop]
  · simp at h

theorem holds_gte (d : Ordering) : CmpOp.gte.holds d = true ↔ d ≠ .lt := by
  cases d <;> decide

theorem holds_lte (d : Ordering) : CmpOp.lte.holds d = true ↔ d ≠ .gt := by
  cases d <;> decide

theorem cmp_gte_port (hi lo : Nat) :
    CmpOp.gte.holds (memcmp [hi, lo] [0, 1]) = true ↔ 1 ≤ hi * 256 + lo := by
  rw [holds_gte]
  simp only [memcmp]
  split_ifs <;> simp <;> omega

theorem cmp_lte_port (hi lo : Nat) (h1 : hi < 256) (h2 : lo < 256) :
    CmpOp.lte.holds (memcmp [hi, lo] [255, 255]) = true := by
  rw [holds_lte]
  simp only [memcmp]
  split_ifs <;> simp <;> omega

theorem mem_of_slice {l : List Nat} {o n : Nat} {d : List Nat} (h : slice l o n = some d) :
    ∀ b ∈ d, b ∈ l := by
  unfold slice at h
  split at h
  · simp only [Option.some.injEq] at h
    subst h
    intro b hb
    exact List.mem_of_mem_drop (List.mem_of_mem_take hb)
  · simp at h

theorem evalRule_nat (p : Packet) (t : NATType) (f a1 a2 p1 p2 : Nat) (es : List Expr)
    (regs : Regs) :
    evalRule p (.nat t f a1 a2 p1 p2 :: es) regs =
      .translate regs (natRange regs t f a1 a2 p1 p2) := by
  simp [evalRule]

theorem dnat_iff (p : Packet) (regs : Regs) (hp : p.WF) :
    (evalRule p dnatRule.exprs regs).isTranslate = true ↔
      p.iifname = [101, 116, 104, 48] ∧ p.l4proto = some 6 ∧
        ∃ hi lo, p.dport = some [hi, lo] ∧ 1 ≤ hi * 256 + lo ∧ hi * 256 + lo ≤ 65535 := by
  obtain ⟨hi1, _, _, _, hth⟩ := hp
  have hname := ifnameBuf_take_eth0 p.iifname hi1
  have hlen := ifnameBuf_length p.iifname
  have e1 := cmp_eq_holds (List.take 5 (ifnameBuf p.iifname)) [101, 116, 104, 48, 0]
    (by simp [hlen])
  rw [hname] at e1
  rw [dnatRule_exprs]
  unfold Packet.dport
  simp only [evalRule_iifname, evalRule_cmp, evalRule_l4proto, evalRule_payload, evalExpr,
    evalRule_immediate, evalRule_nat]
  simp (disch := simp [hlen]) only [readReg_writeReg_same, List.length_cons, List.length_nil]
  simp only [Nat.zero_add, e1]
  by_cases h1 : p.iifname = [101, 116, 104, 48]
  swap
  · simp [h1, Outcome.isTranslate]
  rw [if_pos h1]
  cases h2 : p.l4proto with
  | none => simp [Outcome.isTranslate]
  | some proto =>
    have e2 := cmp_eq_holds [proto] [6] rfl
    simp only [List.take, e2]
    by_cases h3 : proto = 6
    swap
    · simp [h3, Outcome.isTranslate]
    subst h3
    rw [if_pos rfl]
    cases h4 : slice p.transportHeader 2 2 with
    | none => simp [Outcome.isTranslate]
    | some x =>
      obtain ⟨hi, lo, rfl⟩ := list_length_two (slice_length h4)
      have hb := mem_of_slice h4
      have hhi : hi < 256 := hth hi (hb hi (by simp))
      have hlo : lo < 256 := hth lo (hb lo (by simp))
      simp (disch := simp) only [readReg_writeReg_same, List.length_cons, List.length_nil]
      simp only [List.take, cmp_lte_port hi lo hhi hlo, if_true]
      by_cases h5 : 1 ≤ hi * 256 + lo
      · rw [if_pos ((cmp_gte_port hi lo).2 h5)]
        simp only [Outcome.isTranslate, true_iff]
        exact ⟨h1, trivial, hi, lo, rfl, h5, by omega⟩
      · rw [if_neg (fun h => h5 ((cmp_gte_port hi lo).1 h))]
        simp only [Outcome.isTranslate]
        constructor
        · intro h; cases h
        · rintro ⟨_, _, hi1, lo1, he, h6, _⟩
          simp only [Option.some.injEq, List.cons.injEq] at he
          obtain ⟨rfl, rfl, _⟩ := he
          exact absurd h6 h5

theorem cmp_lte_port_of_le (hi lo : Nat) (h : hi * 256 + lo ≤ 65535) :
    CmpOp.lte.holds (memcmp [hi, lo] [255, 255]) = true := by
  rw [holds_lte]
  simp only [memcmp]
  split_ifs <;> simp <;> omega

theorem dnat_rewrites (p : Packet) (regs : Regs) (hi lo : Nat)
    (hif : p.iifname = bytesOf "eth0") (htcp : p.l4proto = some IPPROTO_TCP)
    (hport : p.dport = some [hi, lo]) (h1 : 1 ≤ hi * 256 + lo) (h2 : hi * 256 + lo ≤ 65535)
    (hnh : 20 ≤ p.networkHeader.length) :
    (∃ regs1 range, evalRule p dnatRule.exprs regs = .translate regs1 range ∧
      range.type = .destNAT ∧ range.family = NFPROTO_IPV4 ∧
      readReg regs1 2 4 = [10, 0, 5, 2] ∧ readReg regs1 1 2 = [hi, lo] ∧
      range.addrMin = some [10, 0, 5, 2] ∧ range.addrMax = some [10, 0, 5, 2] ∧
      range.protoMin = some [hi, lo] ∧ range.protoMax = some [hi, lo] ∧
      (p.rewriteDest range).daddr = some [10, 0, 5, 2] ∧
      (p.rewriteDest range).dport = some [hi, lo] ∧
      (p.rewriteDest range).transportHeader = p.transportHeader) ∧
    ∃ pre mid, dnatRule.exprs =
        pre ++ Expr.payload 1 .transportHeader 2 2 :: mid ++ [.nat .destNAT NFPROTO_IPV4 2 0 1 0] ∧
      ∀ e ∈ mid, e.destReg ≠ some 1 := by
  refine ⟨?_, [.metaLoad .iifname 1, .cmp .eq 1 [101, 116, 104, 48, 0], .metaLoad .l4proto 1,
      .cmp .eq 1 [6]], [.cmp .gte 1 [0, 1], .cmp .lte 1 [255, 255], .immediate 2 [10, 0, 5, 2]],
      by decide, by decide⟩
  have hb : bytesOf "eth0" = [101, 116, 104, 48] := by decide
  rw [hb] at hif
  have hs : slice p.transportHeader 2 2 = some [hi, lo] := hport
  have e0 : CmpOp.eq.holds (memcmp (List.take 5 (ifnameBuf [101, 116, 104, 48]))
      [101, 116, 104, 48, 0]) = true := by decide
  have e1 : CmpOp.eq.holds (memcmp [6] [6]) = true := by decide
  have hlen := ifnameBuf_length [101, 116, 104, 48]
  rw [dnatRule_exprs]
  simp only [evalRule_iifname, evalRule_cmp, evalRule_l4proto, evalRule_payload, evalExpr,
    evalRule_immediate, evalRule_nat, hif, htcp, IPPROTO_TCP, hs]
  simp (disch := simp [hlen]) only [readReg_writeReg_same, List.length_cons, List.length_nil]
  simp only [Nat.zero_add, List.take, e0, e1, if_true, (cmp_gte_port hi lo).2 h1,
    cmp_lte_port_of_le hi lo h2]
  refine ⟨_, _, rfl, ?_⟩
  have r2 : ∀ (r : Regs), readReg (writeReg r 2 [10, 0, 5, 2]) 2 4 = [10, 0, 5, 2] := by
    intro r; rw [readReg_writeReg_same _ _ _ _ (by simp)]; rfl
  have r1 : ∀ (r : Regs), readReg (writeReg (writeReg r 1 [hi, lo]) 2 [10, 0, 5, 2]) 1 2
      = [hi, lo] := by
    intro r
    rw [readReg_writeReg_other _ _ _ _ _ (by decide), readReg_writeReg_same _ _ _ _ (by simp)]
    rfl
  simp only [natRange, NFPROTO_IPV4, r1, r2, if_true, Packet.rewriteDest, Packet.daddr,
    Packet.dport]
  simp only [OfNat.ofNat_ne_zero, OfNat.zero_ne_ofNat, if_false, one_ne_zero, if_true, r1, r2]
  refine ⟨trivial, trivial, trivial, trivial, trivial, trivial, trivial, trivial, ?_, ?_, ?_⟩
  · exact slice_patch p.networkHeader 16 [10, 0, 5, 2] (by simpa using hnh)
  · rw [patch_slice hs]; exact hs
  · exact patch_slice hs

theorem pair_trace {σ : Type} (sys : Sys σ) (targetPid : Int) (s : σ) :
    (∃ l, ((setupPairVeths sys targetPid s).trace.map Event.call) <+: pairCalls targetPid l) ∧
    sys.replay ((setupPairVeths sys targetPid s).trace.map Event.call) s =
      ((setupPairVeths sys targetPid s).trace, (setupPairVeths sys targetPid s).state) ∧
    (setupPairVeths sys targetPid s).StopsAtFirstFailure 5 := by
  unfold setupPairVeths
  rcases h1 : sys.LinkAdd (veth targetPid) s with ⟨_ | e1, s1⟩
  swap
  · simp only [h1]
    exact ⟨⟨{ name := "" }, by simp [pairCalls]⟩, by simp [Sys.replay, Sys.exec, h1],
      by simp [Run.StopsAtFirstFailure]; exact ⟨_, rfl⟩⟩
  rcases h2 : sys.LinkByName vethIf s1 with ⟨e2 | l, s2⟩
  · simp only [h1, h2]
    exact ⟨⟨{ name := "" }, by simp [pairCalls]⟩, by simp [Sys.replay, Sys.exec, h1, h2, errOf],
      by simp [Run.StopsAtFirstFailure]; exact ⟨_, rfl⟩⟩
  rcases h3 : sys.AddrAdd l vethIp s2 with ⟨_ | e3, s3⟩
  swap
  · simp only [h1, h2, h3]
    exact ⟨⟨l, by simp [pairCalls]⟩, by simp [Sys.replay, Sys.exec, h1, h2, h3, errOf],
      by simp [Run.StopsAtFirstFailure]; exact ⟨_, rfl⟩⟩
  rcases h4 : sys.LinkSetUp l s3 with ⟨_ | e4, s4⟩
  swap
  · simp only [h1, h2, h3, h4]
    exact ⟨⟨l, by simp [pairCalls]⟩, by simp [Sys.replay, Sys.exec, h1, h2, h3, h4, errOf],
      by simp [Run.StopsAtFirstFailure]; exact ⟨_, rfl⟩⟩
  rcases h5 : sys.Flush conn.messages s4 with ⟨_ | e5, s5⟩
  swap
  · simp only [h1, h2, h3, h4, h5]
    exact ⟨⟨l, by simp [pairCalls]⟩, by simp [Sys.replay, Sys.exec, h1, h2, h3, h4, h5, errOf],
      by simp [Run.StopsAtFirstFailure]; exact ⟨_, rfl⟩⟩
  · simp only [h1, h2, h3, h4, h5]
    exact ⟨⟨l, by simp [pairCalls]⟩, by simp [Sys.replay, Sys.exec, h1, h2, h3, h4, h5, errOf],
      by simp [Run.StopsAtFirstFailure]⟩

end

@[simp] theorem setNs_cur (k : Kernel) (i : Nat) (ns : Netns) : (k.setNs i ns).cur = k.cur := rfl

@[simp] theorem setNs_cap (k : Kernel) (i : Nat) (ns : Netns) :
    (k.setNs i ns).capNetAdmin = k.capNetAdmin := rfl

@[simp] theorem setNs_nsOfPid (k : Kernel) (i : Nat) (ns : Netns) :
    (k.setNs i ns).nsOfPid = k.nsOfPid := rfl

@[simp] theorem setNs_files (k : Kernel) (i : Nat) (ns : Netns) :
    (k.setNs i ns).files = k.files := rfl

@[simp] theorem setNs_writable (k : Kernel) (i : Nat) (ns : Netns) :
    (k.setNs i ns).writable = k.writable := rfl

@[simp] theorem setNs_curNs (k : Kernel) (ns : Netns) : (k.setNs k.cur ns).curNs = ns := by
  simp [Kernel.curNs, Kernel.setNs]

theorem setNs_netns (k : Kernel) (i j : Nat) (ns : Netns) :
    (k.setNs i ns).netns j = if j = i then ns else k.netns j := rfl

@[simp] theorem updateLinks_routes (ns : Netns) (i : Nat) (f : Link → Link) :
    (ns.updateLinks i f).routes = ns.routes := rfl

@[simp] theorem updateLinks_ruleset (ns : Netns) (i : Nat) (f : Link → Link) :
    (ns.updateLinks i f).ruleset = ns.ruleset := rfl

theorem updateLinks_links (ns : Netns) (i : Nat) (f : Link → Link) :
    (ns.updateLinks i f).links = ns.links.map (fun l => if l.index = i then f l else l) := rfl

/-- Finding by name after an update that keeps names. -/
theorem findByName_updateLinks (ns : Netns) (i : Nat) (f : Link → Link) (name : String)
    (hf : ∀ l, (f l).name = l.name) :
    (ns.updateLinks i f).findByName name =
      (ns.findByName name).map (fun l => if l.index = i then f l else l) := by
  have hp : ((fun l : Link => l.name == name) ∘ fun l => if l.index = i then f l else l) =
      fun l : Link => l.name == name := by
    funext l
    simp only [Function.comp]
    split <;> simp [hf]
  unfold Netns.findByName
  rw [updateLinks_links, List.find?_map, hp]

theorem findByIndex_updateLinks (ns : Netns) (i : Nat) (f : Link → Link) (j : Nat)
    (hf : ∀ l, (f l).index = l.index) :
    (ns.updateLinks i f).findByIndex j =
      (ns.findByIndex j).map (fun l => if l.index = i then f l else l) := by
  have hp : ((fun l : Link => l.index == j) ∘ fun l => if l.index = i then f l else l) =
      fun l : Link => l.index == j := by
    funext l
    simp only [Function.comp]
    split <;> simp [hf]
  unfold Netns.findByIndex
  rw [updateLinks_links, List.find?_map, hp]

theorem findByName_name {ns : Netns} {name : String} {l : Link}
    (h : ns.findByName name = some l) : l.name = name := by
  have := List.find?_some h
  simpa using this

theorem findByName_mem {ns : Netns} {name : String} {l : Link}
    (h : ns.findByName name = some l) : l ∈ ns.links :=
  List.mem_of_find?_eq_some h

theorem findByIndex_isSome_of_mem {ns : Netns} {l : Link} (h : l ∈ ns.links) :
    (ns.findByIndex l.index).isSome = true := by
  unfold Netns.findByIndex
  rw [List.find?_isSome]
  exact ⟨l, h, by simp⟩

theorem LinkByName_ok {k : Kernel} {name : String} {l : Link}
    (h : k.curNs.findByName name = some l) : Kernel.LinkByName name k = (.ok l.attrs, k) := by
  simp [Kernel.LinkByName, h]

theorem AddrAdd_ok {k : Kernel} {link : LinkAttrs} {addr : IPNet}
    (hcap : k.capNetAdmin = true) (h4 : To4 addr.ip ≠ [])
    (hex : (k.curNs.findByIndex link.index).isSome = true)
    (hno : k.curNs.links.any
      (fun l => l.index == link.index && l.addrs.contains ⟨To4 addr.ip, addr.mask⟩) = false) :
    Kernel.AddrAdd link addr k =
      (none, k.setNs k.cur (k.curNs.updateLinks link.index
        (Link.addAddr ⟨To4 addr.ip, addr.mask⟩))) := by
  have hex1 : (k.curNs.findByIndex link.index).isNone = false := by
    rw [Option.isNone_eq_false_iff]; exact hex
  unfold Kernel.AddrAdd
  simp only [hcap, h4, hex1, hno]
  simp

theorem LinkSetUp_ok {k : Kernel} {link : LinkAttrs}
    (hcap : k.capNetAdmin = true) (hex : (k.curNs.findByIndex link.index).isSome = true) :
    Kernel.LinkSetUp link k =
      (none, k.setNs k.cur (k.curNs.updateLinks link.index Link.setUp)) := by
  have hex1 : (k.curNs.findByIndex link.index).isNone = false := by
    rw [Option.isNone_eq_false_iff]; exact hex
  unfold Kernel.LinkSetUp
  simp only [hcap, hex1]
  simp

theorem RouteReplace_ok {k : Kernel} {r : Route} {l : Link}
    (hcap : k.capNetAdmin = true)
    (hfind : k.curNs.links.find?
      (fun l => l.up && l.addrs.any (fun a => a.covers (To4 r.gw))) = some l) :
    Kernel.RouteReplace r k =
      (none, k.setNs k.cur
        { k.curNs with
          routes := k.curNs.routes.filter (fun x => x.dst != r.dst) ++
            [{ dst := r.dst, scope := r.scope, gw := To4 r.gw, dev := l.index }] }) := by
  unfold Kernel.RouteReplace
  simp only [hcap, hfind]
  simp

theorem Flush_ok {k : Kernel} {m : List NftMsg} (hcap : k.capNetAdmin = true) :
    Kernel.Flush m k =
      (none, k.setNs k.cur { k.curNs with ruleset := k.curNs.ruleset ++ [m] }) := by
  unfold Kernel.Flush
  simp only [hcap]
  simp

section
open SetupPeerVeth

@[simp] theorem setNs_setNs (k : Kernel) (i : Nat) (a b : Netns) :
    (k.setNs i a).setNs i b = k.setNs i b := by
  unfold Kernel.setNs
  congr 1
  funext j
  simp only
  split <;> rfl

theorem mem_updateLinks {ns : Netns} {i : Nat} {f : Link → Link} {l : Link} (h : l ∈ ns.links) :
    (if l.index = i then f l else l) ∈ (ns.updateLinks i f).links := by
  rw [updateLinks_links]
  exact List.mem_map_of_mem _ h

theorem peer_run (k : Kernel) (c lo : Link)
    (hcap : k.capNetAdmin = true)
    (hc : k.curNs.findByName "ceth0" = some c)
    (hlo : k.curNs.findByName "lo" = some lo)
    (hnew : k.curNs.links.any (fun l => l.index == c.index && l.addrs.contains cethAddr) = false) :
    ∃ (ns3 : Netns) (dev : Nat) (la lb : LinkAttrs),
      ns3 = ((k.curNs.updateLinks c.index (Link.addAddr cethAddr)).updateLinks c.index
        Link.setUp).updateLinks lo.index Link.setUp ∧
      setupPeerVeth refSys k =
        { err := none
          state := k.setNs k.cur { ns3 with
            routes := ns3.routes.filter (fun r => r.dst != none) ++
              [{ dst := none, scope := .universe, gw := [10, 0, 5, 1], dev := dev }] }
          trace := [⟨.LinkByName cethIf, none⟩, ⟨.AddrAdd la cethIp, none⟩,
            ⟨.LinkSetUp la, none⟩, ⟨.LinkByName "lo", none⟩, ⟨.LinkSetUp lb, none⟩,
            ⟨.RouteReplace defaultGw, none⟩] } := by
  have hcmem := findByName_mem hc
  have hlomem := findByName_mem hlo
  have e1 : To4 cethIp.ip = [10, 0, 5, 2] := by decide
  have s1 : Kernel.LinkByName cethIf k = (.ok c.attrs, k) := LinkByName_ok hc
  have s2 : Kernel.AddrAdd c.attrs cethIp k =
      (none, k.setNs k.cur (k.curNs.updateLinks c.index (Link.addAddr cethAddr))) :=
    AddrAdd_ok hcap (by rw [e1]; simp) (findByIndex_isSome_of_mem hcmem) hnew
  have s3 : Kernel.LinkSetUp c.attrs
      (k.setNs k.cur (k.curNs.updateLinks c.index (Link.addAddr cethAddr))) =
      (none, k.setNs k.cur ((k.curNs.updateLinks c.index (Link.addAddr cethAddr)).updateLinks
        c.index Link.setUp)) := by
    rw [LinkSetUp_ok (by simpa using hcap)]
    · simp [Link.attrs]
    · simp only [setNs_curNs, setNs_cur]
      rw [findByIndex_updateLinks _ _ (Link.addAddr cethAddr) _ (fun _ => rfl)]
      simpa [Link.attrs] using findByIndex_isSome_of_mem hcmem
  have s4 : Kernel.LinkByName "lo"
      (k.setNs k.cur ((k.curNs.updateLinks c.index (Link.addAddr cethAddr)).updateLinks
        c.index Link.setUp)) =
      (.ok (if lo.index = c.index then (Link.addAddr cethAddr lo).setUp else lo).attrs,
        k.setNs k.cur ((k.curNs.updateLinks c.index (Link.addAddr cethAddr)).updateLinks
          c.index Link.setUp)) := by
    apply LinkByName_ok
    simp only [setNs_curNs]
    rw [findByName_updateLinks _ _ Link.setUp _ (fun _ => rfl),
      findByName_updateLinks _ _ (Link.addAddr cethAddr) _ (fun _ => rfl), hlo]
    by_cases h : lo.index = c.index <;> simp [h, Link.addAddr]
  have hidx : (if lo.index = c.index then (Link.addAddr cethAddr lo).setUp else lo).attrs.index
      = lo.index := by
    split <;> rfl
  have s5 : Kernel.LinkSetUp (if lo.index = c.index then (Link.addAddr cethAddr lo).setUp else lo).attrs
      (k.setNs k.cur ((k.curNs.updateLinks c.index (Link.addAddr cethAddr)).updateLinks
        c.index Link.setUp)) =
      (none, k.setNs k.cur (((k.curNs.updateLinks c.index (Link.addAddr cethAddr)).updateLinks
        c.index Link.setUp).updateLinks lo.index Link.setUp)) := by
    rw [LinkSetUp_ok (by simpa using hcap)]
    · simp [hidx]
    · simp only [setNs_curNs, setNs_cur, hidx]
      rw [findByIndex_updateLinks _ _ Link.setUp _ (fun _ => rfl),
        findByIndex_updateLinks _ _ (Link.addAddr cethAddr) _ (fun _ => rfl)]
      simpa using findByIndex_isSome_of_mem hlomem
  -- the gateway is reached through the link that was just addressed and brought up
  have hreach : ∃ l, (((k.curNs.updateLinks c.index (Link.addAddr cethAddr)).updateLinks
        c.index Link.setUp).updateLinks lo.index Link.setUp).links.find?
        (fun l => l.up && l.addrs.any (fun a => a.covers (To4 defaultGw.gw))) = some l := by
    rw [← Option.isSome_iff_exists, List.find?_isSome]
    have m1 := mem_updateLinks (i := c.index) (f := Link.addAddr cethAddr) hcmem
    have m2 := mem_updateLinks (i := c.index) (f := Link.setUp) m1
    have m3 := mem_updateLinks (i := lo.index) (f := Link.setUp) m2
    refine ⟨_, m3, ?_⟩
    have hcov : cethAddr.covers (To4 defaultGw.gw) = true := by decide
    by_cases h : c.index = lo.index <;>
      simp [h, Link.addAddr, Link.setUp, hcov]
  obtain ⟨l, hl⟩ := hreach
  have s6 := RouteReplace_ok (k := k.setNs k.cur (((k.curNs.updateLinks c.index
    (Link.addAddr cethAddr)).updateLinks c.index Link.setUp).updateLinks lo.index Link.setUp))
    (r := defaultGw) (l := l) (by simpa using hcap) (by simpa using hl)
  refine ⟨_, l.index, c.attrs,
    (if lo.index = c.index then (Link.addAddr cethAddr lo).setUp else lo).attrs, rfl, ?_⟩
  unfold setupPeerVeth
  simp only [refSys, s1, s2, s3, s4, s5, s6]
  have e2 : To4 vethIp.ip = [10, 0, 5, 1] := by decide
  simp [defaultGw, e2]

theorem setupPeerVeth_ok (k : Kernel) (c lo : Link)
    (hcap : k.capNetAdmin = true)
    (hc : k.curNs.findByName "ceth0" = some c)
    (hlo : k.curNs.findByName "lo" = some lo)
    (hnew : k.curNs.links.any (fun l => l.index == c.index && l.addrs.contains cethAddr) = false) :
    (setupPeerVeth refSys k).err = none ∧
    (setupPeerVeth refSys k).trace.length = 6 ∧
    (∀ e ∈ (setupPeerVeth refSys k).trace, e.err = none) ∧
    (∃ c1, (setupPeerVeth refSys k).state.curNs.findByName "ceth0" = some c1 ∧
      c1.up = true ∧ cethAddr ∈ c1.addrs) ∧
    (∃ lo1, (setupPeerVeth refSys k).state.curNs.findByName "lo" = some lo1 ∧ lo1.up = true) ∧
    (∃ dev, (setupPeerVeth refSys k).state.curNs.routes.filter (fun r => r.dst == none) =
      [{ dst := none, scope := .universe, gw := [10, 0, 5, 1], dev := dev }]) ∧
    (setupPeerVeth refSys k).state.curNs.routes.filter (fun r => r.dst != none) =
      k.curNs.routes.filter (fun r => r.dst != none) := by
  obtain ⟨ns3, dev, la, lb, hns3, hrun⟩ := peer_run k c lo hcap hc hlo hnew
  rw [hrun]
  simp only [setNs_curNs]
  have hfind : ∀ name, ns3.findByName name =
      (k.curNs.findByName name).map (fun l =>
        (fun l => if l.index = lo.index then Link.setUp l else l)
          ((fun l => if l.index = c.index then Link.setUp l else l)
            ((fun l => if l.index = c.index then Link.addAddr cethAddr l else l) l))) := by
    intro name
    rw [hns3, findByName_updateLinks _ _ Link.setUp _ (fun _ => rfl),
      findByName_updateLinks _ _ Link.setUp _ (fun _ => rfl),
      findByName_updateLinks _ _ (Link.addAddr cethAddr) _ (fun _ => rfl)]
    simp only [Option.map_map]
    rfl
  refine ⟨by simp, by simp, by simp, ?_, ?_, ⟨dev, ?_⟩, ?_⟩
  · have h1 := hfind "ceth0"
    rw [hc, Option.map_some'] at h1
    refine ⟨_, h1, ?_, ?_⟩
    · by_cases h : c.index = lo.index <;> simp [h, Link.addAddr, Link.setUp]
    · by_cases h : c.index = lo.index <;> simp [h, Link.addAddr, Link.setUp]
  · have h1 := hfind "lo"
    rw [hlo, Option.map_some'] at h1
    refine ⟨_, h1, ?_⟩
    by_cases h : lo.index = c.index <;> simp [h, Link.addAddr, Link.setUp]
  · simp [List.filter_append, List.filter_filter]
  · have : ns3.routes = k.curNs.routes := by rw [hns3]; rfl
    simp [List.filter_append, List.filter_filter, this]

end

section
open SetupPairVeths

theorem index_lt_freshIndex (ns : Netns) : ∀ l ∈ ns.links, l.index < ns.freshIndex := by
  unfold Netns.freshIndex
  induction ns.links with
  | nil => simp
  | cons x xs ih =>
    intro l hl
    simp only [List.map_cons, List.foldr_cons]
    rcases List.mem_cons.1 hl with rfl | h
    · omega
    · have := ih l h
      omega

theorem findByName_none {ns : Netns} {name : String} (h : ns.findByName name = none) :
    ∀ l ∈ ns.links, l.name ≠ name := by
  intro l hl
  have := List.find?_eq_none.1 h l hl
  simpa using this

@[simp] theorem addLink_cur (k : Kernel) (i : Nat) (l : Link) : (k.addLink i l).cur = k.cur := rfl

@[simp] theorem addLink_cap (k : Kernel) (i : Nat) (l : Link) :
    (k.addLink i l).capNetAdmin = k.capNetAdmin := rfl

@[simp] theorem addLink_nsOfPid (k : Kernel) (i : Nat) (l : Link) :
    (k.addLink i l).nsOfPid = k.nsOfPid := rfl

theorem addLink_netns (k : Kernel) (i j : Nat) (l : Link) :
    (k.addLink i l).netns j =
      if j = i then { (k.netns i) with links := (k.netns i).links ++ [l] } else k.netns j := rfl

theorem LinkAdd_ok (k : Kernel) (pid : Int) (t : Nat)
    (hcap : k.capNetAdmin = true) (hns : k.nsOfPid pid = some t)
    (hv : k.curNs.findByName "veth0" = none)
    (hc : (k.netns t).findByName "ceth0" = none) :
    Kernel.LinkAdd (veth pid) k =
      (none, (k.addLink t (newPeer k.cur (k.netns t).freshIndex (hostIndexOf k t))).addLink k.cur
        (newHost t (k.netns t).freshIndex (hostIndexOf k t))) := by
  unfold Kernel.LinkAdd
  have hne : ¬ (cethIf = vethIf) := by decide
  have hup : (FlagUp != 0) = true := by decide
  simp only [veth, hcap, hns, vethIf, cethIf] at *
  simp [hv, hc, newPeer, newHost, hup, hostIndexOf]

theorem afterLinkAdd_links (k : Kernel) (t : Nat) :
    (afterLinkAdd k t).curNs.links =
      (k.addLink t (newPeer k.cur (k.netns t).freshIndex (hostIndexOf k t))).curNs.links ++
        [newHost t (k.netns t).freshIndex (hostIndexOf k t)] := by
  simp [afterLinkAdd, Kernel.curNs, addLink_netns]

theorem base_links (k : Kernel) (t : Nat) :
    (k.addLink t (newPeer k.cur (k.netns t).freshIndex (hostIndexOf k t))).curNs.links =
      if t = k.cur then k.curNs.links ++ [newPeer k.cur (k.netns t).freshIndex (hostIndexOf k t)]
      else k.curNs.links := by
  by_cases h : t = k.cur
  · subst h
    simp [Kernel.curNs, addLink_netns]
  · have h1 : ¬ k.cur = t := fun e => h e.symm
    simp [Kernel.curNs, addLink_netns, h, h1]

theorem base_props (k : Kernel) (t : Nat) (hv : k.curNs.findByName "veth0" = none) :
    ∀ l ∈ (k.addLink t (newPeer k.cur (k.netns t).freshIndex (hostIndexOf k t))).curNs.links,
      l.name ≠ "veth0" ∧ l.index ≠ hostIndexOf k t := by
  intro l hl
  rw [base_links] at hl
  have hold : ∀ l ∈ k.curNs.links, l.name ≠ "veth0" ∧ l.index ≠ hostIndexOf k t := by
    intro l hl
    refine ⟨findByName_none hv l hl, ?_⟩
    have := index_lt_freshIndex k.curNs l hl
    unfold hostIndexOf
    split
    · rename_i h; subst h
      have : l.index < (k.netns k.cur).freshIndex := this
      omega
    · omega
  by_cases h : t = k.cur
  · rw [if_pos h] at hl
    rcases List.mem_append.1 hl with h1 | h1
    · exact hold l h1
    · simp only [List.mem_singleton] at h1
      subst h1
      refine ⟨by simp [newPeer], ?_⟩
      simp [newPeer, hostIndexOf, h]
  · rw [if_neg h] at hl
    exact hold l hl

theorem updateLinks_last (ns : Netns) (base : List Link) (h : Link) (f : Link → Link)
    (hl : ns.links = base ++ [h]) (hb : ∀ l ∈ base, l.index ≠ h.index) :
    (ns.updateLinks h.index f).links = base ++ [f h] := by
  rw [updateLinks_links, hl, List.map_append]
  congr 1
  · conv_rhs => rw [← List.map_id base]
    apply List.map_congr_left
    intro l hlm
    simp [hb l hlm]
  · simp

theorem host_steps (K : Kernel) (base : List Link) (h : Link) (hcap : K.capNetAdmin = true)
    (hl : K.curNs.links = base ++ [h]) (hn : h.name = "veth0") (ha : h.addrs = [])
    (hb : ∀ l ∈ base, l.name ≠ "veth0" ∧ l.index ≠ h.index) :
    Kernel.LinkByName vethIf K = (.ok h.attrs, K) ∧
    Kernel.AddrAdd h.attrs vethIp K =
      (none, K.setNs K.cur (K.curNs.updateLinks h.index (Link.addAddr vethAddr))) ∧
    Kernel.LinkSetUp h.attrs (K.setNs K.cur (K.curNs.updateLinks h.index (Link.addAddr vethAddr))) =
      (none, K.setNs K.cur ((K.curNs.updateLinks h.index (Link.addAddr vethAddr)).updateLinks
        h.index Link.setUp)) ∧
    ((K.curNs.updateLinks h.index (Link.addAddr vethAddr)).updateLinks h.index Link.setUp).links =
      base ++ [(Link.addAddr vethAddr h).setUp] := by
  have hmem : h ∈ K.curNs.links := by rw [hl]; simp
  have hfind : K.curNs.findByName "veth0" = some h := by
    unfold Netns.findByName
    rw [hl, List.find?_append]
    have : List.find? (fun l => l.name == "veth0") base = none := by
      rw [List.find?_eq_none]
      intro l hlm
      simpa using (hb l hlm).1
    simp [this, hn]
  have e1 : To4 vethIp.ip = [10, 0, 5, 1] := by decide
  have l1 := updateLinks_last K.curNs base h (Link.addAddr vethAddr) hl (fun l hlm => (hb l hlm).2)
  refine ⟨LinkByName_ok hfind, ?_, ?_, ?_⟩
  · refine AddrAdd_ok hcap (by rw [e1]; simp) (findByIndex_isSome_of_mem hmem) ?_
    rw [List.any_eq_false]
    intro l hlm
    rw [hl] at hlm
    rcases List.mem_append.1 hlm with h1 | h1
    · have := (hb l h1).2
      simp [Link.attrs, this]
    · simp only [List.mem_singleton] at h1
      subst h1
      simp [ha]
  · rw [LinkSetUp_ok (by simpa using hcap)]
    · simp [Link.attrs]
    · simp only [setNs_curNs, setNs_cur]
      rw [findByIndex_updateLinks _ _ (Link.addAddr vethAddr) _ (fun _ => rfl)]
      simpa [Link.attrs] using findByIndex_isSome_of_mem hmem
  · exact updateLinks_last _ base (Link.addAddr vethAddr h) Link.setUp l1
      (fun l hlm => (hb l hlm).2)

theorem pair_run (k : Kernel) (pid : Int) (t : Nat)
    (hcap : k.capNetAdmin = true) (hns : k.nsOfPid pid = some t)
    (hv : k.curNs.findByName "veth0" = none)
    (hc : (k.netns t).findByName "ceth0" = none) :
    ∃ la : LinkAttrs,
      setupPairVeths refSys pid k =
        { err := none
          state := (afterLinkAdd k t).setNs k.cur
            { links := (k.addLink t (newPeer k.cur (k.netns t).freshIndex
                (hostIndexOf k t))).curNs.links ++ [finalHost k t]
              routes := (afterLinkAdd k t).curNs.routes
              ruleset := (afterLinkAdd k t).curNs.ruleset ++ [conn.messages] }
          trace := [⟨.LinkAdd (veth pid), none⟩, ⟨.LinkByName vethIf, none⟩,
            ⟨.AddrAdd la vethIp, none⟩, ⟨.LinkSetUp la, none⟩, ⟨.Flush conn.messages, none⟩] } := by
  have s1 : Kernel.LinkAdd (veth pid) k = (none, afterLinkAdd k t) :=
    LinkAdd_ok k pid t hcap hns hv hc
  obtain ⟨s2, s3, s4, hlinks⟩ := host_steps (afterLinkAdd k t) _
    (newHost t (k.netns t).freshIndex (hostIndexOf k t)) (by simpa [afterLinkAdd] using hcap)
    (afterLinkAdd_links k t) rfl rfl (base_props k t hv)
  have hcur : (afterLinkAdd k t).cur = k.cur := rfl
  rw [hcur] at s3 s4
  have s5 := Flush_ok (k := (afterLinkAdd k t).setNs k.cur
    (((afterLinkAdd k t).curNs.updateLinks
      (newHost t (k.netns t).freshIndex (hostIndexOf k t)).index
        (Link.addAddr vethAddr)).updateLinks
      (newHost t (k.netns t).freshIndex (hostIndexOf k t)).index Link.setUp))
    (m := conn.messages) (by simpa [afterLinkAdd] using hcap)
  refine ⟨(newHost t (k.netns t).freshIndex (hostIndexOf k t)).attrs, ?_⟩
  unfold setupPairVeths
  simp only [refSys, s1, s2, s3, s4, s5]
  simp only [Run.mk.injEq, true_and, and_true]
  have hc2 : ((afterLinkAdd k t).setNs k.cur
    (((afterLinkAdd k t).curNs.updateLinks
      (newHost t (k.netns t).freshIndex (hostIndexOf k t)).index
        (Link.addAddr vethAddr)).updateLinks
      (newHost t (k.netns t).freshIndex (hostIndexOf k t)).index Link.setUp)).cur = k.cur := rfl
  rw [hc2, setNs_setNs]
  have hcn : ∀ ns, ((afterLinkAdd k t).setNs k.cur ns).curNs = ns := by
    intro ns
    rw [← hcur, setNs_curNs]
  rw [hcn, hlinks]
  rfl

theorem filter_name_none {links : List Link} {name : String}
    (h : ∀ l ∈ links, l.name ≠ name) : links.filter (fun l => l.name == name) = [] := by
  rw [List.filter_eq_nil_iff]
  intro l hl
  simpa using h l hl

theorem setupPairVeths_ok (k : Kernel) (pid : Int) (t : Nat)
    (hcap : k.capNetAdmin = true) (hns : k.nsOfPid pid = some t)
    (hv : k.curNs.findByName "veth0" = none)
    (hc : (k.netns t).findByName "ceth0" = none) :
    (setupPairVeths refSys pid k).err = none ∧
    (∀ e ∈ (setupPairVeths refSys pid k).trace, e.err = none) ∧
    (setupPairVeths refSys pid k).state.cur = k.cur ∧
    ∃ host peer : Link,
      (setupPairVeths refSys pid k).state.curNs.links.filter (fun l => l.name == "veth0") =
        [host] ∧
      host.up = true ∧ host.mtu = 1500 ∧ host.addrs = [vethAddr] ∧
      ((setupPairVeths refSys pid k).state.netns t).links.filter (fun l => l.name == "ceth0") =
        [peer] ∧
      host.peer = some (t, peer.index) ∧ peer.peer = some (k.cur, host.index) := by
  obtain ⟨la, hrun⟩ := pair_run k pid t hcap hns hv hc
  rw [hrun]
  have hcur : (afterLinkAdd k t).cur = k.cur := rfl
  have hcn : ∀ ns, ((afterLinkAdd k t).setNs k.cur ns).curNs = ns := by
    intro ns
    rw [← hcur, setNs_curNs]
  have hbase := base_props k t hv
  refine ⟨rfl, by simp, rfl, finalHost k t,
    newPeer k.cur (k.netns t).freshIndex (hostIndexOf k t), ?_, rfl, rfl, rfl, ?_, rfl, rfl⟩
  · simp only [hcn]
    rw [List.filter_append, filter_name_none (fun l hl => (hbase l hl).1)]
    simp [finalHost, Link.setUp, Link.addAddr, newHost]
  · have hold := filter_name_none (findByName_none hc)
    by_cases h : t = k.cur
    · subst h
      have : ((afterLinkAdd k k.cur).setNs k.cur
          { links := (k.addLink k.cur (newPeer k.cur (k.netns k.cur).freshIndex
                (hostIndexOf k k.cur))).curNs.links ++ [finalHost k k.cur]
            routes := (afterLinkAdd k k.cur).curNs.routes
            ruleset := (afterLinkAdd k k.cur).curNs.ruleset ++ [conn.messages] }).netns k.cur
          = _ := hcn _
      simp only [this]
      rw [base_links, if_pos rfl, List.filter_append, List.filter_append]
      have hold1 : List.filter (fun l => l.name == "ceth0") k.curNs.links = [] := hold
      rw [hold1]
      simp [finalHost, Link.setUp, Link.addAddr, newHost, newPeer]
    · simp only [setNs_netns, afterLinkAdd, addLink_netns, if_neg h, if_pos rfl, if_true]
      rw [List.filter_append, hold]
      simp [newPeer]

end

section
open SetupPeerVeth

theorem peer_trace {σ : Type} (sys : Sys σ) (s : σ) :
    (∃ c lo, ((setupPeerVeth sys s).trace.map Event.call) <+: peerCalls c lo) ∧
    sys.replay ((setupPeerVeth sys s).trace.map Event.call) s =
      ((setupPeerVeth sys s).trace, (setupPeerVeth sys s).state) ∧
    (setupPeerVeth sys s).StopsAtFirstFailure 6 := by
  unfold setupPeerVeth
  rcases h1 : sys.LinkByName cethIf s with ⟨e1 | c, s1⟩
  · simp only [h1]
    exact ⟨⟨{ name := "" }, { name := "" }, by simp [peerCalls]⟩,
      by simp [Sys.replay, Sys.exec, h1, errOf],
      by simp [Run.StopsAtFirstFailure]; exact ⟨_, rfl⟩⟩
  rcases h2 : sys.AddrAdd c cethIp s1 with ⟨_ | e2, s2⟩
  swap
  · simp only [h1, h2]
    exact ⟨⟨c, { name := "" }, by simp [peerCalls]⟩,
      by simp [Sys.replay, Sys.exec, h1, h2, errOf],
      by simp [Run.StopsAtFirstFailure]; exact ⟨_, rfl⟩⟩
  rcases h3 : sys.LinkSetUp c s2 with ⟨_ | e3, s3⟩
  swap
  · simp only [h1, h2, h3]
    exact ⟨⟨c, { name := "" }, by simp [peerCalls]⟩,
      by simp [Sys.replay, Sys.exec, h1, h2, h3, errOf],
      by simp [Run.StopsAtFirstFailure]; exact ⟨_, rfl⟩⟩
  rcases h4 : sys.LinkByName "lo" s3 with ⟨e4 | lo, s4⟩
  · simp only [h1, h2, h3, h4]
    exact ⟨⟨c, { name := "" }, by simp [peerCalls]⟩,
      by simp [Sys.replay, Sys.exec, h1, h2, h3, h4, errOf],
      by simp [Run.StopsAtFirstFailure]; exact ⟨_, rfl⟩⟩
  rcases h5 : sys.LinkSetUp lo s4 with ⟨_ | e5, s5⟩
  swap
  · simp only [h1, h2, h3, h4, h5]
    exact ⟨⟨c, lo, by simp [peerCalls]⟩,
      by simp [Sys.replay, Sys.exec, h1, h2, h3, h4, h5, errOf],
      by simp [Run.StopsAtFirstFailure]; exact ⟨_, rfl⟩⟩
  rcases h6 : sys.RouteReplace defaultGw s5 with ⟨_ | e6, s6⟩
  swap
  · simp only [h1, h2, h3, h4, h5, h6]
    exact ⟨⟨c, lo, by simp [peerCalls]⟩,
      by simp [Sys.replay, Sys.exec, h1, h2, h3, h4, h5, h6, errOf],
      by simp [Run.StopsAtFirstFailure]; exact ⟨_, rfl⟩⟩
  · simp only [h1, h2, h3, h4, h5, h6]
    exact ⟨⟨c, lo, by simp [peerCalls]⟩,
      by simp [Sys.replay, Sys.exec, h1, h2, h3, h4, h5, h6, errOf],
      by simp [Run.StopsAtFirstFailure]⟩

/-- On the reference kernel a call that fails changes nothing. -/
theorem LinkAdd_fail (v : Veth) (k : Kernel) (h : (Kernel.LinkAdd v k).1 ≠ none) :
    (Kernel.LinkAdd v k).2 = k := by
  unfold Kernel.LinkAdd at *
  by_cases h1 : k.capNetAdmin = false
  · simp [h1]
  · simp only [h1, if_false] at h ⊢
    cases h2 : k.nsOfPid v.peerNamespace with
    | none => simp
    | some t =>
      simp only [h2] at h ⊢
      by_cases h3 : (k.curNs.findByName v.attrs.name).isSome = true
      · simp [h3]
      · by_cases h4 : ((k.netns t).findByName v.peerName).isSome = true
        · simp [h3, h4]
        · by_cases h5 : t = k.cur ∧ v.peerName = v.attrs.name
          · simp [h3, h4, h5]
          · simp [h3, h4, h5] at h

end

section
open SetupPairVeths

theorem and_255_eq (a n : Nat) (ha : a < 256) (h : a &&& 255 = n) : a = n := by
  have h1 : a &&& 255 = a % 256 := Nat.and_pow_two_sub_one_eq_mod a 8
  rw [h1, Nat.mod_eq_of_lt ha] at h
  exact h

/-- C1: the masquerade rule of `setup-pair-veths` reaches its masquerade action
exactly for the packets whose 4-byte source address (network header offset 12),
ANDed with 255.255.255.0 and XORed with 0.0.0.0, is 10.0.5.0 (the host-side
address masked with /24) and whose egress interface name is `eth0`. It never
fires for a source address outside 10.0.5.0/24, and whether it fires depends on
nothing but the source address and the egress interface name. -/
theorem masquerade_rule_matches (p : Packet) (regs : Regs) (hp : p.WF) :
    ((evalRule p masqueradeRule.exprs regs).isMasquerade = true ↔
      ∃ a b c d, p.saddr = some [a, b, c, d] ∧
        [(a &&& 255) ^^^ 0, (b &&& 255) ^^^ 0, (c &&& 255) ^^^ 0, (d &&& 0) ^^^ 0] =
          Mask vethIp.ip (IPv4Mask 255 255 255 0) ∧
        p.oifname = bytesOf "eth0") ∧
    Mask vethIp.ip (IPv4Mask 255 255 255 0) = [10, 0, 5, 0] ∧
    ((evalRule p masqueradeRule.exprs regs).isMasquerade = true →
      ∃ d, p.saddr = some [10, 0, 5, d]) ∧
    (∀ (q : Packet) (regs1 : Regs), q.WF → q.saddr = p.saddr → q.oifname = p.oifname →
      (evalRule q masqueradeRule.exprs regs1).isMasquerade =
        (evalRule p masqueradeRule.exprs regs).isMasquerade) := by
  have hm : Mask vethIp.ip (IPv4Mask 255 255 255 0) = [10, 0, 5, 0] := by decide
  have hb : bytesOf "eth0" = [101, 116, 104, 48] := by decide
  have key := masquerade_iff p regs hp.2.1
  rw [hm, hb]
  refine ⟨key, rfl, ?_, ?_⟩
  · intro h
    obtain ⟨a, b, c, d, hs, he, _⟩ := key.1 h
    have hmem := mem_of_slice hs
    have hlt : ∀ x ∈ [a, b, c, d], x < 256 := fun x hx => hp.2.2.2.1 x (hmem x hx)
    simp only [List.cons.injEq, Nat.xor_zero, and_true] at he
    obtain ⟨h1, h2, h3, _⟩ := he
    have ha := and_255_eq a 10 (hlt a (by simp)) h1
    have hb := and_255_eq b 0 (hlt b (by simp)) h2
    have hc := and_255_eq c 5 (hlt c (by simp)) h3
    subst ha hb hc
    exact ⟨d, hs⟩
  · intro q regs1 hq hs ho
    have key1 := masquerade_iff q regs1 hq.2.1
    rw [hs, ho] at key1
    rw [Bool.eq_iff_iff, key, key1]

/-- Witness for C1, at the sample packet. -/
theorem masquerade_rule_matches_witness :
    samplePacket.WF ∧ (evalRule samplePacket masqueradeRule.exprs emptyRegs).isMasquerade = true :=
  ⟨by decide,
    ((masquerade_rule_matches samplePacket emptyRegs (by decide)).1).2
      ⟨10, 0, 5, 2, by decide, by decide, by decide⟩⟩

/-- C3: the destination-NAT rule of `setup-pair-veths` reaches its NAT action
exactly for the packets whose ingress interface name is `eth0`, whose transport
protocol is TCP (6) and whose 2-byte big-endian destination port is at least 1
and at most 65535. A packet of another protocol, from another interface or
with destination port 0 is not rewritten. -/
theorem dnat_rule_matches (p : Packet) (regs : Regs) (hp : p.WF) :
    ((evalRule p dnatRule.exprs regs).isTranslate = true ↔
      p.iifname = bytesOf "eth0" ∧ p.l4proto = some IPPROTO_TCP ∧
        ∃ hi lo, p.dport = some [hi, lo] ∧ 1 ≤ hi * 256 + lo ∧ hi * 256 + lo ≤ 65535) ∧
    IPPROTO_TCP = 6 ∧
    (p.iifname ≠ bytesOf "eth0" → (evalRule p dnatRule.exprs regs).isTranslate = false) ∧
    (p.l4proto ≠ some IPPROTO_TCP → (evalRule p dnatRule.exprs regs).isTranslate = false) ∧
    (p.dport = some [0, 0] → (evalRule p dnatRule.exprs regs).isTranslate = false) := by
  have hb : bytesOf "eth0" = [101, 116, 104, 48] := by decide
  have key := dnat_iff p regs hp
  rw [hb]
  simp only [IPPROTO_TCP]
  refine ⟨key, trivial, ?_, ?_, ?_⟩
  · intro h
    rw [Bool.eq_false_iff]
    exact fun hf => h (key.1 hf).1
  · intro h
    rw [Bool.eq_false_iff]
    exact fun hf => h (key.1 hf).2.1
  · intro h
    rw [Bool.eq_false_iff]
    intro hf
    obtain ⟨_, _, hi, lo, hd, h1, _⟩ := key.1 hf
    rw [h] at hd
    simp only [Option.some.injEq, List.cons.injEq, and_true] at hd
    obtain ⟨rfl, rfl⟩ := hd
    omega

/-- Witness for C3, at the sample packet. -/
theorem dnat_rule_matches_witness :
    samplePacket.WF ∧ (evalRule samplePacket dnatRule.exprs emptyRegs).isTranslate = true :=
  ⟨by decide,
    ((dnat_rule_matches samplePacket emptyRegs (by decide)).1).2
      ⟨by decide, by decide, 0x1f, 0x90, by decide, by decide, by decide⟩⟩

/-- C2: for a TCP packet that arrives on `eth0` with destination port bytes
`hi lo`, the port being between 1 and 65535, the destination-NAT rule matches;
at its NAT expression (destination NAT, IPv4, address register 2, port
register 1) register 2 holds 10.0.5.2 and register 1 the two port bytes of the
packet; the packet is rewritten to destination address 10.0.5.2 with its
transport header, so its destination port, unchanged. No expression between
the load of the port and the NAT expression writes register 1. -/
theorem dnat_rule_rewrites (p : Packet) (regs : Regs) (hi lo : Nat)
    (hif : p.iifname = bytesOf "eth0") (htcp : p.l4proto = some IPPROTO_TCP)
    (hport : p.dport = some [hi, lo]) (h1 : 1 ≤ hi * 256 + lo) (h2 : hi * 256 + lo ≤ 65535)
    (hnh : 20 ≤ p.networkHeader.length) :
    (∃ regs1 range, evalRule p dnatRule.exprs regs = .translate regs1 range ∧
      range.type = .destNAT ∧ range.family = NFPROTO_IPV4 ∧
      readReg regs1 2 4 = [10, 0, 5, 2] ∧ readReg regs1 1 2 = [hi, lo] ∧
      range.addrMin = some [10, 0, 5, 2] ∧ range.addrMax = some [10, 0, 5, 2] ∧
      range.protoMin = some [hi, lo] ∧ range.protoMax = some [hi, lo] ∧
      (p.rewriteDest range).daddr = some [10, 0, 5, 2] ∧
      (p.rewriteDest range).dport = some [hi, lo] ∧
      (p.rewriteDest range).transportHeader = p.transportHeader) ∧
    ∃ pre mid, dnatRule.exprs =
        pre ++ Expr.payload 1 .transportHeader 2 2 :: mid ++
          [.nat .destNAT NFPROTO_IPV4 2 0 1 0] ∧
      ∀ e ∈ mid, e.destReg ≠ some 1 :=
  dnat_rewrites p regs hi lo hif htcp hport h1 h2 hnh

/-- Witness for C2, at the sample packet (port 8080). -/
theorem dnat_rule_rewrites_witness :
    samplePacket.iifname = bytesOf "eth0" ∧ samplePacket.l4proto = some IPPROTO_TCP ∧
    samplePacket.dport = some [0x1f, 0x90] ∧
    (∃ regs1 range, evalRule samplePacket dnatRule.exprs emptyRegs = .translate regs1 range ∧
      (samplePacket.rewriteDest range).daddr = some [10, 0, 5, 2] ∧
      (samplePacket.rewriteDest range).dport = some [0x1f, 0x90]) := by
  refine ⟨by decide, by decide, by decide, ?_⟩
  obtain ⟨⟨regs1, range, h, _, _, _, _, _, _, _, _, hd, hp, _⟩, _⟩ :=
    dnat_rule_rewrites samplePacket emptyRegs 0x1f 0x90 (by decide) (by decide) (by decide)
      (by decide) (by decide) (by decide)
  exact ⟨regs1, range, h, hd, hp⟩

theorem pair_collision (k : Kernel) (pid : Int) (t : Nat)
    (hcap : k.capNetAdmin = true) (hns : k.nsOfPid pid = some t)
    (hv : (k.curNs.findByName "veth0").isSome = true) :
    setupPairVeths refSys pid k =
      { err := some "link \"veth0\"-\"ceth0\" netns failed: file exists"
        state := k
        trace := [⟨.LinkAdd (veth pid), some "file exists"⟩] } := by
  have h1 : Kernel.LinkAdd (veth pid) k = (some "file exists", k) := by
    simp [Kernel.LinkAdd, hcap, hns, veth, vethIf, hv]
  have hmsg : "link " ++ quote vethIf ++ "-" ++ quote cethIf ++ " netns failed: " ++
      "file exists" = "link \"veth0\"-\"ceth0\" netns failed: file exists" := by decide
  unfold setupPairVeths
  simp only [refSys, h1, hmsg]

theorem pair_rerun (k : Kernel) (pid : Int) (t : Nat)
    (hcap : k.capNetAdmin = true) (hns : k.nsOfPid pid = some t)
    (hv : k.curNs.findByName "veth0" = none)
    (hc : (k.netns t).findByName "ceth0" = none) :
    setupPairVeths refSys pid (setupPairVeths refSys pid k).state =
      { err := some "link \"veth0\"-\"ceth0\" netns failed: file exists"
        state := (setupPairVeths refSys pid k).state
        trace := [⟨.LinkAdd (veth pid), some "file exists"⟩] } := by
  obtain ⟨la, hrun⟩ := pair_run k pid t hcap hns hv hc
  have hcur : (afterLinkAdd k t).cur = k.cur := rfl
  apply pair_collision _ pid t
  · rw [hrun]; simpa [afterLinkAdd] using hcap
  · rw [hrun]; simpa [afterLinkAdd] using hns
  · rw [hrun]
    have hcn : ∀ ns, ((afterLinkAdd k t).setNs k.cur ns).curNs = ns := by
      intro ns
      rw [← hcur, setNs_curNs]
    simp only [hcn]
    unfold Netns.findByName
    rw [List.find?_isSome]
    exact ⟨finalHost k t, by simp, by simp [finalHost, Link.setUp, Link.addAddr, newHost]⟩

theorem LinkAdd_ruleset (v : Veth) (k : Kernel) :
    (Kernel.LinkAdd v k).2.curNs.ruleset = k.curNs.ruleset ∧ (Kernel.LinkAdd v k).2.cur = k.cur := by
  unfold Kernel.LinkAdd
  by_cases h1 : k.capNetAdmin = false
  · simp [h1]
  · simp only [h1, if_false]
    cases h2 : k.nsOfPid v.peerNamespace with
    | none => simp
    | some t =>
      simp only
      by_cases h3 : (k.curNs.findByName v.attrs.name).isSome = true
      · simp [h3]
      · by_cases h4 : ((k.netns t).findByName v.peerName).isSome = true
        · simp [h3, h4]
        · by_cases h5 : t = k.cur ∧ v.peerName = v.attrs.name
          · simp [h3, h4, h5]
          · simp only [h3, h4, h5, if_false]
            refine ⟨?_, rfl⟩
            by_cases h6 : k.cur = t <;> simp [Kernel.curNs, addLink_netns, h6]

theorem AddrAdd_ruleset (l : LinkAttrs) (a : IPNet) (k : Kernel) :
    (Kernel.AddrAdd l a k).2.curNs.ruleset = k.curNs.ruleset ∧ (Kernel.AddrAdd l a k).2.cur = k.cur := by
  unfold Kernel.AddrAdd
  simp only
  split_ifs <;> simp

theorem LinkSetUp_ruleset (l : LinkAttrs) (k : Kernel) :
    (Kernel.LinkSetUp l k).2.curNs.ruleset = k.curNs.ruleset ∧ (Kernel.LinkSetUp l k).2.cur = k.cur := by
  unfold Kernel.LinkSetUp
  split_ifs <;> simp

theorem LinkByName_state (n : String) (k : Kernel) : (Kernel.LinkByName n k).2 = k := by
  unfold Kernel.LinkByName
  split <;> rfl

theorem Flush_ruleset (m : List NftMsg) (k : Kernel) :
    (Kernel.Flush m k).2.curNs.ruleset =
      k.curNs.ruleset ++ (if (Kernel.Flush m k).1 = none then [m] else []) := by
  by_cases hcap : k.capNetAdmin = false
  · simp [Kernel.Flush, hcap]
  · simp [Kernel.Flush, hcap]

/-- On the reference kernel the firewall ruleset of the caller's namespace is
extended by the one transaction when the verb succeeds, and is unchanged when
it fails. -/
theorem pair_ruleset (k : Kernel) (pid : Int) :
    (setupPairVeths refSys pid k).state.curNs.ruleset =
      k.curNs.ruleset ++ (if (setupPairVeths refSys pid k).err = none then [conn.messages] else []) := by
  unfold setupPairVeths
  simp only [refSys]
  obtain ⟨⟨o1, s1⟩, h1⟩ : ∃ r, Kernel.LinkAdd (veth pid) k = r := ⟨_, rfl⟩
  have a1 := LinkAdd_ruleset (veth pid) k
  rw [h1] at a1
  simp only [h1]
  cases o1 with
  | some e1 => simp [a1.1]
  | none =>
  obtain ⟨⟨o2, s2⟩, h2⟩ : ∃ r, Kernel.LinkByName vethIf s1 = r := ⟨_, rfl⟩
  have a2 := LinkByName_state vethIf s1
  rw [h2] at a2
  simp only at a2
  subst a2
  simp only [h2]
  cases o2 with
  | error e2 => simp [a1.1]
  | ok l =>
  obtain ⟨⟨o3, s3⟩, h3⟩ : ∃ r, Kernel.AddrAdd l vethIp s2 = r := ⟨_, rfl⟩
  have a3 := AddrAdd_ruleset l vethIp s2
  rw [h3] at a3
  simp only [h3]
  cases o3 with
  | some e3 => simp [a3.1, a1.1]
  | none =>
  obtain ⟨⟨o4, s4⟩, h4⟩ : ∃ r, Kernel.LinkSetUp l s3 = r := ⟨_, rfl⟩
  have a4 := LinkSetUp_ruleset l s3
  rw [h4] at a4
  simp only [h4]
  cases o4 with
  | some e4 => simp [a4.1, a3.1, a1.1]
  | none =>
  obtain ⟨⟨o5, s5⟩, h5⟩ : ∃ r, Kernel.Flush conn.messages s4 = r := ⟨_, rfl⟩
  have a5 := Flush_ruleset conn.messages s4
  rw [h5] at a5
  simp only [h5]
  cases o5 with
  | some e5 => simp at a5; simp [a5, a4.1, a3.1, a1.1]
  | none => simp at a5; simp [a5, a4.1, a3.1, a1.1]

theorem LinkAdd_none_pre (k : Kernel) (pid : Int) (h : (Kernel.LinkAdd (veth pid) k).1 = none) :
    ∃ t, k.capNetAdmin = true ∧ k.nsOfPid pid = some t ∧ k.curNs.findByName "veth0" = none ∧
      (k.netns t).findByName "ceth0" = none := by
  unfold Kernel.LinkAdd at h
  by_cases h1 : k.capNetAdmin = false
  · simp [h1] at h
  · simp only [h1, if_false] at h
    have hv : (veth pid).peerNamespace = pid := rfl
    rw [hv] at h
    cases h2 : k.nsOfPid pid with
    | none => simp [h2] at h
    | some t =>
      simp only [h2] at h
      by_cases h3 : (k.curNs.findByName (veth pid).attrs.name).isSome = true
      · simp [h3] at h
      · by_cases h4 : ((k.netns t).findByName (veth pid).peerName).isSome = true
        · simp [h3, h4] at h
        · refine ⟨t, by simpa using h1, rfl, ?_, ?_⟩
          · simpa [veth, vethIf] using h3
          · simpa [veth, cethIf] using h4

theorem pair_reaches_lookup (k : Kernel) (pid : Int)
    (h : 2 ≤ (setupPairVeths refSys pid k).trace.length) :
    (Kernel.LinkAdd (veth pid) k).1 = none := by
  unfold setupPairVeths at h
  simp only [refSys] at h
  obtain ⟨⟨o1, s1⟩, h1⟩ : ∃ r, Kernel.LinkAdd (veth pid) k = r := ⟨_, rfl⟩
  rw [h1] at h ⊢
  cases o1 with
  | some e1 => simp at h
  | none => rfl

end

section
open SetupPeerVeth

theorem peer_not_found (k : Kernel) (h : k.curNs.findByName "ceth0" = none) :
    setupPeerVeth refSys k =
      { err := some "cannot found \"ceth0\" netns failed: Link not found"
        state := k
        trace := [⟨.LinkByName cethIf, some "Link not found"⟩] } := by
  have h1 : Kernel.LinkByName cethIf k = (.error "Link not found", k) := by
    simp [Kernel.LinkByName, cethIf, h]
  have hmsg : "cannot found " ++ quote cethIf ++ " netns failed: " ++ "Link not found" =
      "cannot found \"ceth0\" netns failed: Link not found" := by decide
  unfold setupPeerVeth
  simp only [refSys, h1, hmsg]

end

section
open SetupPairVeths

/-- C6: against any kernel, `setup-pair-veths` issues a prefix of the calls
link add, link lookup, address add, link up, firewall flush, and
`setup-peer-veth` a prefix of lookup `ceth0`, address add, link up, lookup
`lo`, `lo` up, route replace; the state a verb leaves is the one these calls
leave; every call but the last one issued succeeded, and the verb returns nil
when the last one succeeded and otherwise an error whose text ends with the
text of the error of that call. On the reference kernel, when `veth0` exists
already, `setup-pair-veths` fails with the name collision after the one call
and leaves the kernel as it was, also on a second invocation after a
successful one; and when `ceth0` is not found, `setup-peer-veth` fails after
the lookup and leaves the kernel as it was. -/
theorem failure_aborts_verb {σ : Type} (sys : Sys σ) (targetPid : Int) (s : σ) (k : Kernel)
    (t : Nat) :
    ((∃ l, ((setupPairVeths sys targetPid s).trace.map Event.call) <+: pairCalls targetPid l) ∧
      sys.replay ((setupPairVeths sys targetPid s).trace.map Event.call) s =
        ((setupPairVeths sys targetPid s).trace, (setupPairVeths sys targetPid s).state) ∧
      (setupPairVeths sys targetPid s).StopsAtFirstFailure 5) ∧
    ((∃ c lo, ((setupPeerVeth sys s).trace.map Event.call) <+: peerCalls c lo) ∧
      sys.replay ((setupPeerVeth sys s).trace.map Event.call) s =
        ((setupPeerVeth sys s).trace, (setupPeerVeth sys s).state) ∧
      (setupPeerVeth sys s).StopsAtFirstFailure 6) ∧
    (k.capNetAdmin = true → k.nsOfPid targetPid = some t →
      (k.curNs.findByName "veth0").isSome = true →
      setupPairVeths refSys targetPid k =
        { err := some "link \"veth0\"-\"ceth0\" netns failed: file exists"
          state := k
          trace := [⟨.LinkAdd (veth targetPid), some "file exists"⟩] }) ∧
    (k.capNetAdmin = true → k.nsOfPid targetPid = some t →
      k.curNs.findByName "veth0" = none → (k.netns t).findByName "ceth0" = none →
      (setupPairVeths refSys targetPid k).err = none ∧
      setupPairVeths refSys targetPid (setupPairVeths refSys targetPid k).state =
        { err := some "link \"veth0\"-\"ceth0\" netns failed: file exists"
          state := (setupPairVeths refSys targetPid k).state
          trace := [⟨.LinkAdd (veth targetPid), some "file exists"⟩] }) ∧
    (k.curNs.findByName "ceth0" = none →
      setupPeerVeth refSys k =
        { err := some "cannot found \"ceth0\" netns failed: Link not found"
          state := k
          trace := [⟨.LinkByName SetupPeerVeth.cethIf, some "Link not found"⟩] }) :=
  ⟨pair_trace sys targetPid s, peer_trace sys s,
    fun hcap hns hv => pair_collision k targetPid t hcap hns hv,
    fun hcap hns hv hc =>
      ⟨(setupPairVeths_ok k targetPid t hcap hns hv hc).1, pair_rerun k targetPid t hcap hns hv hc⟩,
    fun h => peer_not_found k h⟩

/-- Witness for C6: the name collision at a kernel that has `veth0`, the second
invocation and the missing `ceth0` at the fresh kernel. -/
theorem failure_aborts_verb_witness :
    (busyKernel.curNs.findByName "veth0").isSome = true ∧
    (setupPairVeths refSys 4242 busyKernel).err =
      some "link \"veth0\"-\"ceth0\" netns failed: file exists" ∧
    (setupPairVeths refSys 4242 (setupPairVeths refSys 4242 freshKernel).state).err =
      some "link \"veth0\"-\"ceth0\" netns failed: file exists" ∧
    (setupPeerVeth refSys freshKernel).err =
      some "cannot found \"ceth0\" netns failed: Link not found" :=
  ⟨by decide,
    congrArg Run.err ((failure_aborts_verb refSys 4242 busyKernel busyKernel 1).2.2.1
      (by decide) (by decide) (by decide)),
    congrArg Run.err ((failure_aborts_verb refSys 4242 freshKernel freshKernel 1).2.2.2.1
      (by decide) (by decide) (by decide) (by decide)).2,
    congrArg Run.err ((failure_aborts_verb refSys 4242 freshKernel freshKernel 1).2.2.2.2
      (by decide))⟩

/-- C7, as the code has it: when the creation of the pair fails, for whatever
reason, `setup-pair-veths` returns the error of that call with its context in
front, leaves the kernel in the state the failed call left, and has issued this
one call only: it deletes nothing. On the reference kernel, where a pair is
created whole or not at all, a pid without namespace makes the creation fail,
and after any failed creation the kernel is as it was before the invocation. -/
theorem link_add_failure_is_returned {σ : Type} (sys : Sys σ) (targetPid : Int) (s s1 : σ)
    (e : String) (k : Kernel) :
    (sys.LinkAdd (veth targetPid) s = (some e, s1) →
      setupPairVeths sys targetPid s =
        { err := some ("link \"veth0\"-\"ceth0\" netns failed: " ++ e)
          state := s1
          trace := [⟨.LinkAdd (veth targetPid), some e⟩] }) ∧
    (k.capNetAdmin = true → k.nsOfPid targetPid = none →
      setupPairVeths refSys targetPid k =
        { err := some "link \"veth0\"-\"ceth0\" netns failed: no such process"
          state := k
          trace := [⟨.LinkAdd (veth targetPid), some "no such process"⟩] }) ∧
    ((Kernel.LinkAdd (veth targetPid) k).1 ≠ none →
      (setupPairVeths refSys targetPid k).err ≠ none ∧
      (setupPairVeths refSys targetPid k).state = k ∧
      (setupPairVeths refSys targetPid k).trace.length = 1) := by
  have hmsg : "link " ++ quote vethIf ++ "-" ++ quote cethIf ++ " netns failed: " =
      "link \"veth0\"-\"ceth0\" netns failed: " := by decide
  have first : ∀ {τ : Type} (y : Sys τ) (a b : τ) (u : String),
      y.LinkAdd (veth targetPid) a = (some u, b) →
      setupPairVeths y targetPid a =
        { err := some ("link \"veth0\"-\"ceth0\" netns failed: " ++ u)
          state := b
          trace := [⟨.LinkAdd (veth targetPid), some u⟩] } := by
    intro τ y a b u h
    unfold setupPairVeths
    simp only [h, hmsg]
  refine ⟨first sys s s1 e, ?_, ?_⟩
  · intro hcap hns
    have h1 : Kernel.LinkAdd (veth targetPid) k = (some "no such process", k) := by
      simp [Kernel.LinkAdd, hcap, hns, veth]
    have hmsg2 : "link \"veth0\"-\"ceth0\" netns failed: " ++ "no such process" =
        "link \"veth0\"-\"ceth0\" netns failed: no such process" := by decide
    unfold setupPairVeths
    simp only [refSys, h1, hmsg, hmsg2]
  · intro h
    have hk := LinkAdd_fail (veth targetPid) k h
    obtain ⟨⟨o, k1⟩, h1⟩ : ∃ r, Kernel.LinkAdd (veth targetPid) k = r := ⟨_, rfl⟩
    rw [h1] at h hk
    simp only at hk
    subst hk
    cases o with
    | none => exact absurd rfl h
    | some u =>
      have hrun := first refSys k1 k1 u h1
      rw [hrun]
      exact ⟨by simp, rfl, rfl⟩

/-- Witness for C7 as amended: pid 7 has no namespace in the fresh kernel. -/
theorem link_add_failure_is_returned_witness :
    freshKernel.nsOfPid 7 = none ∧
    (setupPairVeths refSys 7 freshKernel).err =
      some "link \"veth0\"-\"ceth0\" netns failed: no such process" ∧
    (setupPairVeths refSys 7 freshKernel).trace.length = 1 :=
  ⟨by decide,
    congrArg Run.err ((link_add_failure_is_returned refSys 7 freshKernel freshKernel ""
      freshKernel).2.1 (by decide) (by decide)),
    congrArg (fun r => r.trace.length) ((link_add_failure_is_returned refSys 7 freshKernel
      freshKernel "" freshKernel).2.1 (by decide) (by decide))⟩

/-- Counterexample to C7 as stated: against a kernel in which the creation of
the pair fails at the placement of the sandbox-side end with the host-side end
in place, `setup-pair-veths` fails, has issued the link creation and no other
call, so no deletion, and `veth0` is still there. -/
theorem host_end_is_not_deleted :
    (setupPairVeths halfVethSys 4242 []).err =
      some "link \"veth0\"-\"ceth0\" netns failed: no such process" ∧
    (setupPairVeths halfVethSys 4242 []).trace.map Event.call = [.LinkAdd (veth 4242)] ∧
    "veth0" ∈ (setupPairVeths halfVethSys 4242 []).state := by
  decide

theorem flush_is_last {σ : Type} (sys : Sys σ) (targetPid : Int) (s : σ) :
    ∀ e ∈ (setupPairVeths sys targetPid s).trace, ∀ m, e.call = .Flush m →
      m = conn.messages ∧
      (∃ la, (setupPairVeths sys targetPid s).trace =
        [⟨.LinkAdd (veth targetPid), none⟩, ⟨.LinkByName vethIf, none⟩,
          ⟨.AddrAdd la vethIp, none⟩, ⟨.LinkSetUp la, none⟩, e]) ∧
      ((setupPairVeths sys targetPid s).err = none ↔ e.err = none) := by
  unfold setupPairVeths
  rcases h1 : sys.LinkAdd (veth targetPid) s with ⟨_ | e1, s1⟩
  swap
  · simp [h1]
  rcases h2 : sys.LinkByName vethIf s1 with ⟨e2 | l, s2⟩
  · simp [h1, h2]
  rcases h3 : sys.AddrAdd l vethIp s2 with ⟨_ | e3, s3⟩
  swap
  · simp [h1, h2, h3]
  rcases h4 : sys.LinkSetUp l s3 with ⟨_ | e4, s4⟩
  swap
  · simp [h1, h2, h3, h4]
  rcases h5 : sys.Flush conn.messages s4 with ⟨_ | e5, s5⟩
  swap
  · simp only [h1, h2, h3, h4, h5, List.mem_cons, List.mem_singleton, List.not_mem_nil, or_false]
    rintro e (rfl | rfl | rfl | rfl | rfl) m hm <;> simp at hm
    subst hm
    exact ⟨rfl, ⟨l, rfl⟩, by simp⟩
  · simp only [h1, h2, h3, h4, h5, List.mem_cons, List.mem_singleton, List.not_mem_nil, or_false]
    rintro e (rfl | rfl | rfl | rfl | rfl) m hm <;> simp at hm
    subst hm
    exact ⟨rfl, ⟨l, rfl⟩, by simp⟩

theorem flush_reached_host_up (k : Kernel) (targetPid : Int) :
    (∃ e ∈ (setupPairVeths refSys targetPid k).trace, ∃ m, e.call = .Flush m) →
      ∃ host ∈ (setupPairVeths refSys targetPid k).state.curNs.links,
        host.name = "veth0" ∧ host.up = true ∧ vethAddr ∈ host.addrs := by
  rintro ⟨e, he, m, hm⟩
  obtain ⟨_, ⟨la, htr⟩, _⟩ := flush_is_last refSys targetPid k e he m hm
  have hlen : 2 ≤ (setupPairVeths refSys targetPid k).trace.length := by
    rw [htr]; simp
  obtain ⟨t, hcap, hns, hv, hc⟩ := LinkAdd_none_pre k targetPid (pair_reaches_lookup k targetPid hlen)
  obtain ⟨_, _, _, host, peer, hf, hup, _, haddr, _⟩ := setupPairVeths_ok k targetPid t hcap hns hv hc
  have hmem : host ∈ List.filter (fun l => l.name == "veth0")
      (setupPairVeths refSys targetPid k).state.curNs.links := by
    rw [hf]; simp
  rw [List.mem_filter] at hmem
  exact ⟨host, hmem.1, by simpa using hmem.2, hup, by rw [haddr]; simp⟩

/-- C8: the transaction `setup-pair-veths` buffers is, in this order, the IPv4
table `nat`, the NAT chain `postrouting` of that table on the post-routing hook
with source-NAT priority, the masquerade rule in that table and chain (its six
expressions, ending in the masquerade action), the NAT chain `prerouting` of
that table on the pre-routing hook with destination-NAT priority, and the
destination-NAT rule in that table and chain (its nine expressions, ending in
the NAT action). Against any kernel a flush the verb issues carries exactly this
transaction, is its fifth and last call, after link add, link lookup, address
add and link up have succeeded, and the verb returns nil exactly when the flush
succeeded. On the reference kernel the ruleset of the caller's namespace is
extended by this one transaction when the verb returns nil and is unchanged
otherwise, and a flush is reached only with `veth0` present, addressed and
up. -/
theorem firewall_transaction {σ : Type} (sys : Sys σ) (targetPid : Int) (s : σ) (k : Kernel) :
    (conn.messages =
      [ .newTable { family := .ipv4, name := "nat" },
        .newChain
          { name := "postrouting", hooknum := .postrouting, priority := ChainPriorityNATSource,
            table := { family := .ipv4, name := "nat" }, type := .nat },
        .newRule
          { table := { family := .ipv4, name := "nat" },
            chain :=
              { name := "postrouting", hooknum := .postrouting,
                priority := ChainPriorityNATSource,
                table := { family := .ipv4, name := "nat" }, type := .nat },
            exprs :=
              [ .payload 1 .networkHeader 12 4,
                .bitwise 1 1 4 [255, 255, 255, 0] [0, 0, 0, 0],
                .cmp .eq 1 [10, 0, 5, 0],
                .metaLoad .oifname 1,
                .cmp .eq 1 [101, 116, 104, 48, 0],
                .masq ] },
        .newChain
          { name := "prerouting", hooknum := .prerouting, priority := ChainPriorityNATDest,
            table := { family := .ipv4, name := "nat" }, type := .nat },
        .newRule
          { table := { family := .ipv4, name := "nat" },
            chain :=
              { name := "prerouting", hooknum := .prerouting,
                priority := ChainPriorityNATDest,
                table := { family := .ipv4, name := "nat" }, type := .nat },
            exprs :=
              [ .metaLoad .iifname 1,
                .cmp .eq 1 [101, 116, 104, 48, 0],
                .metaLoad .l4proto 1,
                .cmp .eq 1 [6],
                .payload 1 .transportHeader 2 2,
                .cmp .gte 1 [0, 1],
                .cmp .lte 1 [255, 255],
                .immediate 2 [10, 0, 5, 2],
                .nat .destNAT 2 2 0 1 0 ] } ] ∧
      conn.messages =
        [ .newTable nat, .newChain postrouting, .newRule masqueradeRule, .newChain prerouting,
          .newRule dnatRule ] ∧
      ChainPriorityNATSource = 100 ∧ ChainPriorityNATDest = -100 ∧ NFPROTO_IPV4 = 2) ∧
    masqueradeRule.chain = postrouting ∧ dnatRule.chain = prerouting ∧
    (∀ e ∈ (setupPairVeths sys targetPid s).trace, ∀ m, e.call = .Flush m →
      m = conn.messages ∧
      (∃ la, (setupPairVeths sys targetPid s).trace =
        [⟨.LinkAdd (veth targetPid), none⟩, ⟨.LinkByName vethIf, none⟩,
          ⟨.AddrAdd la vethIp, none⟩, ⟨.LinkSetUp la, none⟩, e]) ∧
      ((setupPairVeths sys targetPid s).err = none ↔ e.err = none)) ∧
    (setupPairVeths refSys targetPid k).state.curNs.ruleset =
      k.curNs.ruleset ++
        (if (setupPairVeths refSys targetPid k).err = none then [conn.messages] else []) ∧
    ((∃ e ∈ (setupPairVeths refSys targetPid k).trace, ∃ m, e.call = .Flush m) →
      ∃ host ∈ (setupPairVeths refSys targetPid k).state.curNs.links,
        host.name = "veth0" ∧ host.up = true ∧ vethAddr ∈ host.addrs) :=
  ⟨⟨by decide, rfl, rfl, rfl, rfl⟩, rfl, rfl, flush_is_last sys targetPid s,
    pair_ruleset k targetPid, flush_reached_host_up k targetPid⟩

/-- Witness for C8, at the fresh kernel: the flush is reached and `veth0` is
there, addressed and up. -/
theorem firewall_transaction_witness :
    (setupPairVeths refSys 4242 freshKernel).state.curNs.ruleset = [conn.messages] ∧
    ∃ host ∈ (setupPairVeths refSys 4242 freshKernel).state.curNs.links,
      host.name = "veth0" ∧ host.up = true ∧ vethAddr ∈ host.addrs :=
  ⟨by decide,
    (firewall_transaction refSys 4242 freshKernel freshKernel).2.2.2.2.2
      ⟨⟨.Flush conn.messages, none⟩, by decide, conn.messages, rfl⟩⟩

theorem WriteFile_ok (name : String) (data : List Nat) (perm : Nat) (k : Kernel)
    (h : k.writable name = true) :
    Kernel.WriteFile name data perm k =
      (none, { k with files := fun n => if n = name then some data else k.files n }) := by
  simp [Kernel.WriteFile, h]

theorem WriteFile_none_iff (name : String) (data : List Nat) (perm : Nat) (k : Kernel) :
    (Kernel.WriteFile name data perm k).1 = none ↔ k.writable name = true := by
  unfold Kernel.WriteFile
  by_cases h : k.writable name = false
  · simp [h]
  · simp [h]

theorem WriteFile_twice (name : String) (data : List Nat) (perm : Nat) (k : Kernel)
    (h : k.writable name = true) :
    Kernel.WriteFile name data perm (Kernel.WriteFile name data perm k).2 =
      (none, (Kernel.WriteFile name data perm k).2) := by
  simp only [Kernel.WriteFile, h, Bool.true_eq_false, if_false, Prod.mk.injEq, true_and]
  congr 1
  funext n
  by_cases hn : n = name <;> simp [hn]

/-- C9: against any kernel `enable-ip-forward` issues one write of the byte
string "1" to `/proc/sys/net/ipv4/ip_forward` and returns what the write
returns, so it fails exactly when the write fails. On the reference kernel,
whatever the file held before, a run that succeeds leaves the file holding
exactly "1", a second run then succeeds as well and leaves the state of the
first. -/
theorem enable_ip_forward_idempotent {σ : Type} (sys : Sys σ) (s : σ) (k : Kernel) :
    ((enableIpForward sys s).err = (sys.WriteFile ipForwardFile (bytesOf "1") 0o644 s).1 ∧
      (enableIpForward sys s).state = (sys.WriteFile ipForwardFile (bytesOf "1") 0o644 s).2 ∧
      (enableIpForward sys s).trace.map Event.call =
        [.WriteFile ipForwardFile (bytesOf "1") 0o644]) ∧
    ipForwardFile = "/proc/sys/net/ipv4/ip_forward" ∧ bytesOf "1" = [49] ∧
    ((enableIpForward refSys k).err = none →
      (enableIpForward refSys k).state.files ipForwardFile = some (bytesOf "1") ∧
      (enableIpForward refSys (enableIpForward refSys k).state).err = none ∧
      (enableIpForward refSys (enableIpForward refSys k).state).state =
        (enableIpForward refSys k).state) := by
  refine ⟨⟨rfl, rfl, rfl⟩, rfl, by decide, ?_⟩
  intro h
  have hw : k.writable ipForwardFile = true :=
    (WriteFile_none_iff ipForwardFile (bytesOf "1") 0o644 k).1 h
  have h2 := WriteFile_twice ipForwardFile (bytesOf "1") 0o644 k hw
  refine ⟨?_, ?_, ?_⟩
  · show (Kernel.WriteFile ipForwardFile (bytesOf "1") 0o644 k).2.files ipForwardFile = _
    rw [WriteFile_ok _ _ _ k hw]
    simp
  · show (Kernel.WriteFile ipForwardFile (bytesOf "1") 0o644
      (Kernel.WriteFile ipForwardFile (bytesOf "1") 0o644 k).2).1 = none
    rw [h2]
  · show (Kernel.WriteFile ipForwardFile (bytesOf "1") 0o644
      (Kernel.WriteFile ipForwardFile (bytesOf "1") 0o644 k).2).2 = _
    rw [h2]
    rfl

/-- Witness for C9, at the fresh kernel, where the file does not exist yet. -/
theorem enable_ip_forward_idempotent_witness :
    freshKernel.files ipForwardFile = none ∧
    (enableIpForward refSys freshKernel).err = none ∧
    (enableIpForward refSys freshKernel).state.files ipForwardFile = some [49] ∧
    (enableIpForward refSys (enableIpForward refSys freshKernel).state).err = none :=
  ⟨by decide, by decide,
    ((enable_ip_forward_idempotent refSys freshKernel freshKernel).2.2.2 (by decide)).1,
    ((enable_ip_forward_idempotent refSys freshKernel freshKernel).2.2.2 (by decide)).2.1⟩

/-- C10: the constants the two verbs define separately agree. The address the
destination-NAT rule loads is the one `setup-peer-veth` gives to `ceth0`
(10.0.5.2); the gateway `setup-peer-veth` installs is the address
`setup-pair-veths` gives to `veth0` (10.0.5.1); the peer name of the pair is the
name `setup-peer-veth` looks up; both addresses have the mask 255.255.255.0,
differ, and lie in the subnet the masquerade rule compares with, so that a
packet sourced from the sandbox-side address fires the masquerade rule exactly
when it leaves through `eth0`. -/
theorem addressing_constants_agree (targetPid : Int) (p : Packet) (regs : Regs) :
    Expr.immediate 2 (To4 SetupPeerVeth.cethIp.ip) ∈ dnatRule.exprs ∧
    To4 SetupPeerVeth.cethIp.ip = [10, 0, 5, 2] ∧
    SetupPairVeths.cethIp = SetupPeerVeth.cethIp ∧
    SetupPeerVeth.defaultGw.gw = SetupPairVeths.vethIp.ip ∧
    To4 SetupPeerVeth.defaultGw.gw = [10, 0, 5, 1] ∧
    SetupPairVeths.vethIp = SetupPeerVeth.vethIp ∧
    (veth targetPid).peerName = SetupPeerVeth.cethIf ∧ SetupPeerVeth.cethIf = "ceth0" ∧
    SetupPairVeths.vethIp.mask = [255, 255, 255, 0] ∧
    SetupPeerVeth.cethIp.mask = [255, 255, 255, 0] ∧
    To4 SetupPairVeths.vethIp.ip ≠ To4 SetupPeerVeth.cethIp.ip ∧
    Mask SetupPairVeths.vethIp.ip SetupPairVeths.vethIp.mask = masqueradeAddr.ip ∧
    Mask SetupPeerVeth.cethIp.ip SetupPeerVeth.cethIp.mask = masqueradeAddr.ip ∧
    Expr.cmp .eq 1 (To4 masqueradeAddr.ip) ∈ masqueradeRule.exprs ∧
    (p.saddr = some (To4 SetupPeerVeth.cethIp.ip) → IsIfName p.oifname →
      ((evalRule p masqueradeRule.exprs regs).isMasquerade = true ↔
        p.oifname = bytesOf "eth0")) := by
  refine ⟨by decide, by decide, by decide, by decide, by decide, by decide, rfl, by decide,
    by decide, by decide, by decide, by decide, by decide, by decide, ?_⟩
  intro hs hn
  have e : To4 SetupPeerVeth.cethIp.ip = [10, 0, 5, 2] := by decide
  have hb : bytesOf "eth0" = [101, 116, 104, 48] := by decide
  rw [e] at hs
  rw [masquerade_iff p regs hn, hb]
  constructor
  · rintro ⟨_, _, _, _, _, _, h⟩
    exact h
  · intro h
    exact ⟨10, 0, 5, 2, hs, by decide, h⟩

/-- Witness for C10, at the sample packet, which comes from 10.0.5.2 and
leaves through `eth0`. -/
theorem addressing_constants_agree_witness :
    samplePacket.saddr = some (To4 SetupPeerVeth.cethIp.ip) ∧ IsIfName samplePacket.oifname ∧
    (evalRule samplePacket masqueradeRule.exprs emptyRegs).isMasquerade = true :=
  ⟨by decide, by decide,
    ((addressing_constants_agree 4242 samplePacket emptyRegs).2.2.2.2.2.2.2.2.2.2.2.2.2.2
      (by decide) (by decide)).2 (by decide)⟩

theorem pair_err_none_linkAdd (k : Kernel) (pid : Int)
    (h : (setupPairVeths refSys pid k).err = none) :
    (Kernel.LinkAdd (veth pid) k).1 = none := by
  unfold setupPairVeths at h
  simp only [refSys] at h
  obtain ⟨⟨o1, s1⟩, h1⟩ : ∃ r, Kernel.LinkAdd (veth pid) k = r := ⟨_, rfl⟩
  rw [h1] at h ⊢
  cases o1 with
  | some e1 => simp at h
  | none => rfl

theorem pair_err_none_iff (k : Kernel) (pid : Int) :
    (setupPairVeths refSys pid k).err = none ↔
      ∃ t, k.capNetAdmin = true ∧ k.nsOfPid pid = some t ∧
        k.curNs.findByName "veth0" = none ∧ (k.netns t).findByName "ceth0" = none := by
  constructor
  · intro h
    exact LinkAdd_none_pre k pid (pair_err_none_linkAdd k pid h)
  · rintro ⟨t, hcap, hns, hv, hc⟩
    exact (setupPairVeths_ok k pid t hcap hns hv hc).1

end

section
open SetupPeerVeth

theorem peer_err_none_pre (k : Kernel) (h : (setupPeerVeth refSys k).err = none) :
    ∃ c lo, k.capNetAdmin = true ∧ k.curNs.findByName "ceth0" = some c ∧
      k.curNs.findByName "lo" = some lo ∧
      k.curNs.links.any (fun l => l.index == c.index && l.addrs.contains cethAddr) = false := by
  cases hc : k.curNs.findByName "ceth0" with
  | none =>
    rw [peer_not_found k hc] at h
    simp at h
  | some c =>
    have hcmem := findByName_mem hc
    have e1 : To4 cethIp.ip = [10, 0, 5, 2] := by decide
    have s1 : Kernel.LinkByName cethIf k = (.ok c.attrs, k) := LinkByName_ok hc
    have hex : (k.curNs.findByIndex c.attrs.index).isNone = false := by
      rw [Option.isNone_eq_false_iff]
      exact findByIndex_isSome_of_mem hcmem
    by_cases hcap : k.capNetAdmin = true
    swap
    · exfalso
      have hcap1 : k.capNetAdmin = false := by simpa using hcap
      have s2 : Kernel.AddrAdd c.attrs cethIp k = (some "operation not permitted", k) := by
        simp [Kernel.AddrAdd, hcap1]
      unfold setupPeerVeth at h
      simp only [refSys, s1, s2] at h
      simp at h
    by_cases hnew : k.curNs.links.any
        (fun l => l.index == c.index && l.addrs.contains cethAddr) = false
    swap
    · exfalso
      have hnew1 : k.curNs.links.any
          (fun l => l.index == c.attrs.index && l.addrs.contains ⟨To4 cethIp.ip, cethIp.mask⟩)
            = true := by
        have e2 : (⟨To4 cethIp.ip, cethIp.mask⟩ : IfAddr) = cethAddr := by decide
        rw [e2]
        cases hb : k.curNs.links.any
            (fun l => l.index == c.index && l.addrs.contains cethAddr) with
        | true => exact hb
        | false => exact absurd hb hnew
      have s2 : Kernel.AddrAdd c.attrs cethIp k = (some "file exists", k) := by
        have h4 : ¬ (To4 cethIp.ip = []) := by rw [e1]; simp
        unfold Kernel.AddrAdd
        simp only [hcap, h4, hex, hnew1]
        simp
      unfold setupPeerVeth at h
      simp only [refSys, s1, s2] at h
      simp at h
    cases hlo : k.curNs.findByName "lo" with
    | some lo => exact ⟨c, lo, hcap, rfl, rfl, hnew⟩
    | none =>
      exfalso
      have s2 : Kernel.AddrAdd c.attrs cethIp k =
          (none, k.setNs k.cur (k.curNs.updateLinks c.index (Link.addAddr cethAddr))) :=
        AddrAdd_ok hcap (by rw [e1]; simp) (findByIndex_isSome_of_mem hcmem) hnew
      have s3 : Kernel.LinkSetUp c.attrs
          (k.setNs k.cur (k.curNs.updateLinks c.index (Link.addAddr cethAddr))) =
          (none, k.setNs k.cur ((k.curNs.updateLinks c.index (Link.addAddr cethAddr)).updateLinks
            c.index Link.setUp)) := by
        rw [LinkSetUp_ok (by simpa using hcap)]
        · simp [Link.attrs]
        · simp only [setNs_curNs, setNs_cur]
          rw [findByIndex_updateLinks _ _ (Link.addAddr cethAddr) _ (fun _ => rfl)]
          simpa [Link.attrs] using findByIndex_isSome_of_mem hcmem
      have s4 : Kernel.LinkByName "lo"
          (k.setNs k.cur ((k.curNs.updateLinks c.index (Link.addAddr cethAddr)).updateLinks
            c.index Link.setUp)) =
          (.error "Link not found",
            k.setNs k.cur ((k.curNs.updateLinks c.index (Link.addAddr cethAddr)).updateLinks
              c.index Link.setUp)) := by
        unfold Kernel.LinkByName
        simp only [setNs_curNs]
        rw [findByName_updateLinks _ _ Link.setUp _ (fun _ => rfl),
          findByName_updateLinks _ _ (Link.addAddr cethAddr) _ (fun _ => rfl), hlo]
        rfl
      unfold setupPeerVeth at h
      simp only [refSys, s1, s2, s3, s4] at h
      simp at h

theorem peer_err_none_iff (k : Kernel) :
    (setupPeerVeth refSys k).err = none ↔
      ∃ c lo, k.capNetAdmin = true ∧ k.curNs.findByName "ceth0" = some c ∧
        k.curNs.findByName "lo" = some lo ∧
        k.curNs.links.any (fun l => l.index == c.index && l.addrs.contains cethAddr) = false := by
  constructor
  · exact peer_err_none_pre k
  · rintro ⟨c, lo, hcap, hc, hlo, hnew⟩
    exact (setupPeerVeth_ok k c lo hcap hc hlo hnew).1

end

section
open SetupPairVeths

/-- C4: on the reference kernel `setup-pair-veths` returns nil exactly in the
states in which the caller may change the network, the pid has a namespace, no
link `veth0` exists in the caller's namespace and no link `ceth0` in that of
the pid. In such a state every kernel call of the verb succeeds and it leaves
exactly one link named `veth0` in the caller's namespace, up, with MTU 1500 and
address 10.0.5.1/24, and exactly one link named `ceth0` in the namespace of the
pid, the two being each other's peer. -/
theorem setup_pair_veths_succeeds (k : Kernel) (pid : Int) :
    ((setupPairVeths refSys pid k).err = none ↔
      ∃ t, k.capNetAdmin = true ∧ k.nsOfPid pid = some t ∧
        k.curNs.findByName "veth0" = none ∧ (k.netns t).findByName "ceth0" = none) ∧
    ∀ t, k.capNetAdmin = true → k.nsOfPid pid = some t →
      k.curNs.findByName "veth0" = none → (k.netns t).findByName "ceth0" = none →
      (setupPairVeths refSys pid k).err = none ∧
      (∀ e ∈ (setupPairVeths refSys pid k).trace, e.err = none) ∧
      (setupPairVeths refSys pid k).state.cur = k.cur ∧
      vethAddr = { ip := [10, 0, 5, 1], mask := [255, 255, 255, 0] } ∧
      ∃ host peer : Link,
        (setupPairVeths refSys pid k).state.curNs.links.filter (fun l => l.name == "veth0") =
          [host] ∧
        host.up = true ∧ host.mtu = 1500 ∧ host.addrs = [vethAddr] ∧
        ((setupPairVeths refSys pid k).state.netns t).links.filter
          (fun l => l.name == "ceth0") = [peer] ∧
        host.peer = some (t, peer.index) ∧ peer.peer = some (k.cur, host.index) := by
  refine ⟨pair_err_none_iff k pid, ?_⟩
  intro t hcap hns hv hc
  obtain ⟨h1, h2, h3, h4⟩ := setupPairVeths_ok k pid t hcap hns hv hc
  exact ⟨h1, h2, h3, rfl, h4⟩

/-- Witness for C4, at the fresh kernel and pid 4242. -/
theorem setup_pair_veths_succeeds_witness :
    freshKernel.capNetAdmin = true ∧ freshKernel.nsOfPid 4242 = some 1 ∧
    freshKernel.curNs.findByName "veth0" = none ∧
    (freshKernel.netns 1).findByName "ceth0" = none ∧
    (setupPairVeths refSys 4242 freshKernel).err = none :=
  ⟨by decide, by decide, by decide, by decide,
    ((setup_pair_veths_succeeds freshKernel 4242).2 1 (by decide) (by decide) (by decide)
      (by decide)).1⟩

/-- C5: on the reference kernel `setup-peer-veth` returns nil exactly in the
states in which the caller may change the network, the links `ceth0` and `lo`
exist and `ceth0` does not carry 10.0.5.2/24 yet. In such a state all six
kernel calls succeed and the verb leaves `ceth0` up with address 10.0.5.2/24,
`lo` up, and exactly one default route, of universe scope and with gateway
10.0.5.1, whatever default routes there were before; the other routes are
kept. -/
theorem setup_peer_veth_succeeds (k : Kernel) :
    ((setupPeerVeth refSys k).err = none ↔
      ∃ c lo, k.capNetAdmin = true ∧ k.curNs.findByName "ceth0" = some c ∧
        k.curNs.findByName "lo" = some lo ∧
        k.curNs.links.any (fun l => l.index == c.index && l.addrs.contains cethAddr) = false) ∧
    ∀ c lo, k.capNetAdmin = true → k.curNs.findByName "ceth0" = some c →
      k.curNs.findByName "lo" = some lo →
      k.curNs.links.any (fun l => l.index == c.index && l.addrs.contains cethAddr) = false →
      (setupPeerVeth refSys k).err = none ∧
      (setupPeerVeth refSys k).trace.length = 6 ∧
      (∀ e ∈ (setupPeerVeth refSys k).trace, e.err = none) ∧
      cethAddr = { ip := [10, 0, 5, 2], mask := [255, 255, 255, 0] } ∧
      (∃ c1, (setupPeerVeth refSys k).state.curNs.findByName "ceth0" = some c1 ∧
        c1.up = true ∧ cethAddr ∈ c1.addrs) ∧
      (∃ lo1, (setupPeerVeth refSys k).state.curNs.findByName "lo" = some lo1 ∧
        lo1.up = true) ∧
      (∃ dev, (setupPeerVeth refSys k).state.curNs.routes.filter (fun r => r.dst == none) =
        [{ dst := none, scope := .universe, gw := [10, 0, 5, 1], dev := dev }]) ∧
      (setupPeerVeth refSys k).state.curNs.routes.filter (fun r => r.dst != none) =
        k.curNs.routes.filter (fun r => r.dst != none) := by
  refine ⟨peer_err_none_iff k, ?_⟩
  intro c lo hcap hc hlo hnew
  obtain ⟨h1, h2, h3, h4⟩ := setupPeerVeth_ok k c lo hcap hc hlo hnew
  exact ⟨h1, h2, h3, rfl, h4⟩

/-- Witness for C5, at a sandbox namespace that has a default route already. -/
theorem setup_peer_veth_succeeds_witness :
    sandboxKernel.capNetAdmin = true ∧
    (sandboxKernel.curNs.routes.filter (fun r => r.dst == none)).length = 1 ∧
    (setupPeerVeth refSys sandboxKernel).err = none ∧
    ∃ dev, (setupPeerVeth refSys sandboxKernel).state.curNs.routes.filter
        (fun r => r.dst == none) =
      [{ dst := none, scope := .universe, gw := [10, 0, 5, 1], dev := dev }] :=
  ⟨by decide, by decide,
    ((setup_peer_veth_succeeds sandboxKernel).2
      { index := 2, name := "ceth0", up := false, mtu := 1500, addrs := [], peer := some (0, 2) }
      loLink (by decide) (by decide) (by decide) (by decide)).1,
    ((setup_peer_veth_succeeds sandboxKernel).2
      { index := 2, name := "ceth0", up := false, mtu := 1500, addrs := [], peer := some (0, 2) }
      loLink (by decide) (by decide) (by decide) (by decide)).2.2.2.2.2.2.1⟩

end

end Nsinsider
